import Mathlib

/-!
A shallow embedding of the pairing/bonding orchestrator `SecurityManagerImpl`
declared in `system/gd/security/internal/security_manager_impl.h`.

The header in the repository declares the orchestrator's state (the security
record database, the pairing-handler table keyed by `hci::Address`, the
configuration members with their default initializers, the single-slot remote
OOB data members, the policy-enforcement callback table keyed by
`hci::AddressWithType`, and the LE fixed-channel list) and defines, inline,
the destructor's channel-teardown loop.  The method bodies live in the
companion `.cc` translation unit, which is not part of the provided sources;
operation bodies below are therefore modelled from the specification
(`spec.md`, sections 3, 4.1, 5 and 7), and each such definition says so in
its doc comment.  Structural facts (map key types, member defaults, the
destructor loop) are taken directly from the header.

The orchestrator is single-threaded by design (every operation is a task run
to completion on the SM handler), so its behaviour is embedded as a pure
step function on an explicit state, driven by a list of commands; externally
observable callbacks (listener notifications, policy-result callbacks,
negotiation lifecycle) are recorded as an event trace.
-/

namespace SecurityImpl

/-- Transport device address (`hci::Address`, 48-bit), abstracted to a
natural number. -/
structure Address where
  val : Nat
deriving DecidableEq, Repr

/-- Address-type tag carried by `hci::AddressWithType`. -/
inductive AddressType where
  | public_device_address
  | random_device_address
  | public_identity_address
  | random_identity_address
deriving DecidableEq, Repr

/-- Peer identity (`hci::AddressWithType`): a transport address together with
its address-type tag. -/
structure AddressWithType where
  address : Address
  addressType : AddressType
deriving DecidableEq, Repr

/-- A 16-byte value (`std::array<uint8_t, 16>` / `crypto_toolbox::Octet16`). -/
structure Octet16 where
  bytes : List Nat
deriving DecidableEq, Repr

/-- Classic IO capability (`hci::IoCapability`). -/
inductive IoCapability where
  | display_only
  | display_yes_no
  | keyboard_only
  | no_input_no_output
deriving DecidableEq, Repr

/-- Classic OOB-data-present flag (`hci::OobDataPresent`). -/
inductive OobDataPresent where
  | not_present
  | p_192_present
  | p_256_present
  | p_192_and_256_present
deriving DecidableEq, Repr

/-- Classic authentication requirements (`hci::AuthenticationRequirements`). -/
inductive AuthenticationRequirements where
  | no_bonding
  | no_bonding_mitm_protection
  | dedicated_bonding
  | dedicated_bonding_mitm_protection
  | general_bonding
  | general_bonding_mitm_protection
deriving DecidableEq, Repr

/-- LE (SMP-level) IO capability (`security::IoCapability` in the source; the
name is qualified here to avoid clashing with the classic HCI enum). -/
inductive LeIoCapability where
  | display_only
  | display_yes_no
  | keyboard_only
  | no_input_no_output
  | keyboard_display
deriving DecidableEq, Repr

/-- LE OOB data flag (`security::OobDataFlag`). -/
inductive OobDataFlag where
  | not_present
  | present
deriving DecidableEq, Repr

/-- Default classic IO capability (header line 39). -/
def kDefaultIoCapability : IoCapability := IoCapability.display_yes_no

/-- Default classic OOB-data-present flag (header line 40). -/
def kDefaultOobDataPresent : OobDataPresent := OobDataPresent.not_present

/-- Default classic authentication requirements (header lines 41-42). -/
def kDefaultAuthenticationRequirements : AuthenticationRequirements :=
  AuthenticationRequirements.general_bonding

/-- Modelled from the spec: the SMP AuthReq bonding-flag bit named in the
header's initializer `AuthReqMaskBondingFlag | AuthReqMaskMitm | AuthReqMaskSc`
(the mask constants are declared in `pairing_handler_le.h`, outside the
provided sources; the values follow the SMP AuthReq bit layout). -/
def AuthReqMaskBondingFlag : Nat := 1

/-- Modelled from the spec: the SMP AuthReq MITM bit (see
`AuthReqMaskBondingFlag`). -/
def AuthReqMaskMitm : Nat := 4

/-- Modelled from the spec: the SMP AuthReq secure-connections bit (see
`AuthReqMaskBondingFlag`). -/
def AuthReqMaskSc : Nat := 8

/-- Bonding state of a security record (spec section 3, Security Record). -/
inductive BondState where
  | unbonded
  | bonding
  | bonded
deriving DecidableEq, Repr

/-- Modelled from the spec (section 3, Security Record): bonding state,
negotiated key material, whether the pairing that produced it was
authenticated (MITM-protected), and the IO capability used.  The concrete
`record::SecurityRecord` class is outside the provided sources. -/
structure SecurityRecord where
  state : BondState
  key_material : Option Octet16
  authenticated : Bool
  io_capability_used : Option IoCapability
deriving DecidableEq, Repr

/-- Modelled from the spec (glossary, "Security policy"): a required minimum
security level for a channel use.  The concrete
`l2cap::classic::SecurityPolicy` enum is outside the provided sources; both
the classic and the LE policy are embedded with this one type. -/
inductive SecurityPolicy where
  | no_security_whatsoever_plaintext_transport_ok
  | encrypted_transport
  | authenticated_encrypted_transport
  | best
deriving DecidableEq, Repr

/-- Modelled from the spec: whether a (possibly absent) security record
already satisfies a requested policy — an encrypted transport needs a bonded
record, an authenticated one additionally needs MITM-protected key material. -/
def satisfiesPolicy (r : Option SecurityRecord) (p : SecurityPolicy) : Bool :=
  match p with
  | SecurityPolicy.no_security_whatsoever_plaintext_transport_ok => true
  | SecurityPolicy.encrypted_transport =>
    match r with
    | some sr => decide (sr.state = BondState.bonded)
    | none => false
  | SecurityPolicy.authenticated_encrypted_transport =>
    match r with
    | some sr => decide (sr.state = BondState.bonded) && sr.authenticated
    | none => false
  | SecurityPolicy.best =>
    match r with
    | some sr => decide (sr.state = BondState.bonded) && sr.authenticated
    | none => false

/-- Typed reason of a failed negotiation (spec section 7, error taxonomy). -/
inductive PairingFailureReason where
  | protocol_failure
  | link_loss
  | timeout
  | cancelled
deriving DecidableEq, Repr

/-- Terminal outcome of one negotiation (`PairingResultOrFailure`): success
carrying the negotiated key and its authentication level, or a typed
failure. -/
inductive PairingResultOrFailure where
  | success (key : Octet16) (authenticated : Bool)
  | failure (reason : PairingFailureReason)
deriving DecidableEq, Repr

/-- Transport of a negotiation (classic pairing handler vs LE pairing
handler, spec section 4.2). -/
inductive Transport where
  | classic
  | le
deriving DecidableEq, Repr

/-- Modelled from the spec (section 3, Pairing Handler Instance): one
protocol state machine per active negotiation, holding the configuration
snapshot taken at dispatch, the remote OOB data it observes, and the
cooperative cancellation mark (spec section 5).  `negotiation_id` is proof
bookkeeping identifying the negotiation this handler drives.  The concrete
`pairing::PairingHandler` / `PairingHandlerLe` classes are outside the
provided sources. -/
structure PairingHandler where
  negotiation_id : Nat
  peer : AddressWithType
  transport : Transport
  locally_initiated : Bool
  io_capability : IoCapability
  authentication_requirements : AuthenticationRequirements
  oob_data_present : OobDataPresent
  le_io_capability : LeIoCapability
  le_auth_req : Nat
  le_oob_data_present : OobDataFlag
  remote_oob_c : Option Octet16
  remote_oob_r : Option Octet16
  cancelled : Bool
deriving DecidableEq, Repr

/-- A stored LE fixed-channel entry (`LeFixedChannelEntry`, header lines
46-49): the owned channel and its enqueue buffer, abstracted to the peer the
channel is open to and a channel identity standing for the owned
`unique_ptr`s. -/
structure LeFixedChannelEntry where
  peer : AddressWithType
  channel_id : Nat
deriving DecidableEq, Repr

/-- Externally observable effects of one orchestrator step: listener
notifications (`NotifyDeviceBonded` / `NotifyDeviceBondFailed` /
`NotifyDeviceUnbonded`), a policy-enforcement result callback identified by
the callback id allocated at the enforcement call, and negotiation
lifecycle markers (a pairing handler dispatched / a pairing handler's
completion processed by `OnPairingHandlerComplete`). -/
inductive Event where
  | deviceBonded (peer : AddressWithType)
  | deviceBondFailed (peer : AddressWithType) (reason : PairingFailureReason)
  | deviceUnbonded (peer : AddressWithType)
  | policyResult (cb_id : Nat) (success : Bool)
  | negotiationStarted (nid : Nat) (peer : AddressWithType)
  | negotiationCompleted (nid : Nat) (peer : AddressWithType)
deriving DecidableEq, Repr

/-- The orchestrator state, with the members of `SecurityManagerImpl`
(header lines 217-247).  The pairing-handler table is keyed by the bare
`hci::Address` (header line 224) while the policy-enforcement table is keyed
by the full `hci::AddressWithType` (header lines 236-239), exactly as in the
source.  `next_negotiation_id` and `next_callback_id` are proof bookkeeping:
fresh identities for dispatched negotiations and for the result callbacks
supplied to the two policy-enforcement entry points. -/
structure SMState where
  security_database_ : List (AddressWithType × SecurityRecord)
  pairing_handler_map_ : List (Address × PairingHandler)
  local_io_capability_ : IoCapability
  local_authentication_requirements_ : AuthenticationRequirements
  local_oob_data_present_ : OobDataPresent
  local_le_io_capability_ : LeIoCapability
  local_le_auth_req_ : Nat
  local_le_oob_data_present_ : OobDataFlag
  local_le_oob_data_ : Option (Octet16 × Octet16)
  remote_oob_data_address_ : Option AddressWithType
  remote_oob_data_le_sc_c_ : Option Octet16
  remote_oob_data_le_sc_r_ : Option Octet16
  enforce_security_policy_callback_map_ : List (AddressWithType × SecurityPolicy × Nat)
  all_channels_ : List LeFixedChannelEntry
  next_negotiation_id : Nat
  next_callback_id : Nat
deriving DecidableEq, Repr

/-- First-match lookup in an association list (the embedding of the
`std::unordered_map` members; keys are kept unique by construction). -/
def assocLookup {κ τ : Type} [DecidableEq κ] : List (κ × τ) → κ → Option τ
  | [], _ => none
  | e :: m, a => if e.1 = a then some e.2 else assocLookup m a

/-- Removal of every binding of a key from an association list. -/
def assocErase {κ τ : Type} [DecidableEq κ] (m : List (κ × τ)) (a : κ) : List (κ × τ) :=
  m.filter (fun e => decide (¬ e.1 = a))

/-- Lookup of the security record of a peer in `security_database_`. -/
def recordLookup (s : SMState) (a : AddressWithType) : Option SecurityRecord :=
  assocLookup s.security_database_ a

/-- Whether an optional record is in the bonded state. -/
def isBondedRecord : Option SecurityRecord → Bool
  | some sr => decide (sr.state = BondState.bonded)
  | none => false

/-- Modelled from the spec: the pairing handler dispatched for a peer
snapshots the orchestrator's current configuration (spec section 6,
configuration surface: settings take effect on the next initiated
negotiation) and, when the single remote-OOB slot holds data for this peer,
observes that confirmation/random pair as the remote OOB data. -/
def makeHandler (s : SMState) (peer : AddressWithType) (t : Transport)
    (locally_initiated : Bool) : PairingHandler :=
  { negotiation_id := s.next_negotiation_id
    peer := peer
    transport := t
    locally_initiated := locally_initiated
    io_capability := s.local_io_capability_
    authentication_requirements := s.local_authentication_requirements_
    oob_data_present := s.local_oob_data_present_
    le_io_capability := s.local_le_io_capability_
    le_auth_req := s.local_le_auth_req_
    le_oob_data_present := s.local_le_oob_data_present_
    remote_oob_c :=
      if s.remote_oob_data_address_ = some peer then s.remote_oob_data_le_sc_c_ else none
    remote_oob_r :=
      if s.remote_oob_data_address_ = some peer then s.remote_oob_data_le_sc_r_ else none
    cancelled := false }

/-- Modelled from the spec (`DispatchPairingHandler`, spec section 4.1): if a
handler is already active for the peer's address the call is a no-op,
otherwise a fresh transport-appropriate handler is created and entered into
`pairing_handler_map_` (keyed by the bare address, header line 224) and the
negotiation starts. -/
def DispatchPairingHandler (s : SMState) (peer : AddressWithType) (t : Transport)
    (locally_initiated : Bool) : SMState × List Event :=
  match assocLookup s.pairing_handler_map_ peer.address with
  | some _ => (s, [])
  | none =>
    let h := makeHandler s peer t locally_initiated
    ({ s with
        pairing_handler_map_ := (peer.address, h) :: s.pairing_handler_map_,
        next_negotiation_id := s.next_negotiation_id + 1 },
     [Event.negotiationStarted h.negotiation_id peer])

/-- Modelled from the spec (`CreateBond`, spec section 4.1): if the peer's
record is already bonded the call succeeds immediately by notifying
listeners; otherwise a classic pairing handler is dispatched (which is a
no-op when one is already active for the peer). -/
def CreateBond (s : SMState) (a : AddressWithType) : SMState × List Event :=
  if isBondedRecord (recordLookup s a) then (s, [Event.deviceBonded a])
  else DispatchPairingHandler s a Transport.classic true

/-- Modelled from the spec (`CreateBondLe`, spec section 4.1): as
`CreateBond` over the LE transport.  The LE channel-open deferral is internal
to the dispatched negotiation and is not modelled; the handler-table entry is
created at dispatch either way. -/
def CreateBondLe (s : SMState) (a : AddressWithType) : SMState × List Event :=
  if isBondedRecord (recordLookup s a) then (s, [Event.deviceBonded a])
  else DispatchPairingHandler s a Transport.le true

/-- Marking of the handler stored under a key as cancelled, leaving every
other field and every other entry unchanged. -/
def markCancelled (m : List (Address × PairingHandler)) (a : Address) :
    List (Address × PairingHandler) :=
  m.map (fun e => if e.1 = a then (e.1, { e.2 with cancelled := true }) else e)

/-- Modelled from the spec (`CancelBond`, spec sections 4.1 and 5): with no
active handler for the peer the call is a no-op; otherwise the handler is
cooperatively marked for teardown and must still reach its terminal callback
(`OnPairingHandlerComplete`), which is where it leaves the table.  The
security record is not touched. -/
def CancelBond (s : SMState) (a : AddressWithType) : SMState × List Event :=
  match assocLookup s.pairing_handler_map_ a.address with
  | none => (s, [])
  | some _ =>
    ({ s with pairing_handler_map_ := markCancelled s.pairing_handler_map_ a.address }, [])

/-- Modelled from the spec (`RemoveBond`, spec section 4.1): deletes the
security record, cancels any active handler, closes any fixed channel open
to the peer, and — only if a record existed — reports success and notifies
listeners of "unbonded".  (The header declares the C++ method `void` but
documents `@return true if removed`; the returned flag follows the spec.) -/
def RemoveBond (s : SMState) (a : AddressWithType) : SMState × List Event × Bool :=
  match recordLookup s a with
  | none => (s, [], false)
  | some _ =>
    let s1 := { s with security_database_ := assocErase s.security_database_ a }
    let r2 := CancelBond s1 a
    let s3 := { r2.1 with
                all_channels_ := r2.1.all_channels_.filter (fun c => decide (¬ c.peer = a)) }
    (s3, [Event.deviceUnbonded a], true)

/-- Modelled from the spec: the security-record upsert performed at pairing
completion — on success the peer's record becomes bonded with the negotiated
key material, on failure the database is untouched (spec section 4.4:
upsert-on-pairing-complete). -/
def completeRecordUpdate (db : List (AddressWithType × SecurityRecord))
    (h : PairingHandler) : PairingResultOrFailure → List (AddressWithType × SecurityRecord)
  | PairingResultOrFailure.success key auth =>
    (h.peer,
      { state := BondState.bonded
        key_material := some key
        authenticated := auth
        io_capability_used := some h.io_capability }) :: assocErase db h.peer
  | PairingResultOrFailure.failure _ => db

/-- The policy-enforcement entries pending for a bare address. -/
def pendingEntriesFor (m : List (AddressWithType × SecurityPolicy × Nat)) (a : Address) :
    List (AddressWithType × SecurityPolicy × Nat) :=
  m.filter (fun e => decide (e.1.address = a))

/-- The policy-enforcement table with every entry for a bare address removed. -/
def removePendingFor (m : List (AddressWithType × SecurityPolicy × Nat)) (a : Address) :
    List (AddressWithType × SecurityPolicy × Nat) :=
  m.filter (fun e => decide (¬ e.1.address = a))

/-- The listener notification fired at completion: bonded on success,
bond-failed with the reason on failure. -/
def bondEventFor (peer : AddressWithType) : PairingResultOrFailure → Event
  | PairingResultOrFailure.success _ _ => Event.deviceBonded peer
  | PairingResultOrFailure.failure r => Event.deviceBondFailed peer r

/-- The resolutions of the policy-enforcement entries pending for a bare
address, each retried against the post-completion database. -/
def resolutionEventsFor (m : List (AddressWithType × SecurityPolicy × Nat)) (a : Address)
    (db : List (AddressWithType × SecurityRecord)) : List Event :=
  (pendingEntriesFor m a).map
    (fun e => Event.policyResult e.2.2 (satisfiesPolicy (assocLookup db e.1) e.2.1))

/-- Modelled from the spec (`OnPairingHandlerComplete`, spec section 4.1):
the single convergence point of every termination path.  A completion for a
peer with no handler in the table is a stale callback and is dropped;
otherwise the handler leaves the table, the security record is updated on
success, every pending policy-enforcement entry for the peer is resolved by
retrying its policy check against the now-updated record, and listeners are
notified of bonded / bond-failed.  A handler that was cooperatively
cancelled terminates with the cancelled failure whatever the transport
reported (spec sections 5 and 7). -/
def OnPairingHandlerComplete (s : SMState) (addr : Address)
    (result : PairingResultOrFailure) : SMState × List Event :=
  match assocLookup s.pairing_handler_map_ addr with
  | none => (s, [])
  | some h =>
    let res := if h.cancelled then PairingResultOrFailure.failure PairingFailureReason.cancelled
               else result
    let db := completeRecordUpdate s.security_database_ h res
    ({ s with
        pairing_handler_map_ := assocErase s.pairing_handler_map_ addr,
        security_database_ := db,
        enforce_security_policy_callback_map_ :=
          removePendingFor s.enforce_security_policy_callback_map_ addr },
     Event.negotiationCompleted h.negotiation_id h.peer :: bondEventFor h.peer res ::
       resolutionEventsFor s.enforce_security_policy_callback_map_ addr db)

/-- The policy-enforcement entries registered for a full peer identity. -/
def entriesFor (m : List (AddressWithType × SecurityPolicy × Nat)) (remote : AddressWithType) :
    List (AddressWithType × SecurityPolicy × Nat) :=
  m.filter (fun e => decide (e.1 = remote))

/-- The policy-enforcement table with every entry for a full peer identity
removed. -/
def removeEntriesFor (m : List (AddressWithType × SecurityPolicy × Nat))
    (remote : AddressWithType) : List (AddressWithType × SecurityPolicy × Nat) :=
  m.filter (fun e => decide (¬ e.1 = remote))

/-- The failure resolutions of the entries a new enforcement call for the
same full peer identity displaces. -/
def displacedEvents (m : List (AddressWithType × SecurityPolicy × Nat))
    (remote : AddressWithType) : List Event :=
  (entriesFor m remote).map (fun e => Event.policyResult e.2.2 false)

/-- Modelled from the spec (`InternalEnforceSecurityPolicy`, spec sections
4.1 and 7): if the record already satisfies the policy the callback resolves
synchronously with success; otherwise, when meeting the requirements is
permitted, a policy-enforcement entry is registered — resolving any displaced
pending entry for the same peer with failure, so that every caller receives
exactly one resolution, never silence — and a negotiation is triggered to
back it (a no-op when one is already active); otherwise the callback resolves
immediately with failure. -/
def InternalEnforceSecurityPolicy (s : SMState) (remote : AddressWithType)
    (policy : SecurityPolicy) (cb_id : Nat) (t : Transport) (try_meet_requirements : Bool) :
    SMState × List Event :=
  if satisfiesPolicy (recordLookup s remote) policy then
    (s, [Event.policyResult cb_id true])
  else if try_meet_requirements then
    let sD := { s with
                enforce_security_policy_callback_map_ :=
                  removeEntriesFor s.enforce_security_policy_callback_map_ remote }
    let rD := DispatchPairingHandler sD remote t true
    ({ rD.1 with
        enforce_security_policy_callback_map_ :=
          (remote, policy, cb_id) :: rD.1.enforce_security_policy_callback_map_ },
     displacedEvents s.enforce_security_policy_callback_map_ remote ++ rD.2)
  else
    (s, [Event.policyResult cb_id false])

/-- Modelled from the spec (`EnforceSecurityPolicy`): allocates the identity
of the supplied result callback and runs the internal enforcement with
`try_meet_requirements` over the classic transport. -/
def EnforceSecurityPolicy (s : SMState) (remote : AddressWithType)
    (policy : SecurityPolicy) : SMState × List Event :=
  ({ (InternalEnforceSecurityPolicy s remote policy s.next_callback_id
        Transport.classic true).1 with
      next_callback_id := s.next_callback_id + 1 },
   (InternalEnforceSecurityPolicy s remote policy s.next_callback_id Transport.classic true).2)

/-- Modelled from the spec (`EnforceLeSecurityPolicy`): mirrors
`EnforceSecurityPolicy` over the LE transport. -/
def EnforceLeSecurityPolicy (s : SMState) (remote : AddressWithType)
    (policy : SecurityPolicy) : SMState × List Event :=
  ({ (InternalEnforceSecurityPolicy s remote policy s.next_callback_id
        Transport.le true).1 with
      next_callback_id := s.next_callback_id + 1 },
   (InternalEnforceSecurityPolicy s remote policy s.next_callback_id Transport.le true).2)

/-- Modelled from the spec (`SetOutOfBandData`, spec section 4.1, with the
single-slot members of header lines 232-234): records the remote peer's
confirmation/random pair, replacing whatever the single remote-OOB slot
held. -/
def SetOutOfBandData (s : SMState) (remote_address : AddressWithType)
    (le_sc_confirmation_value le_sc_random_value : Octet16) : SMState :=
  { s with
    remote_oob_data_address_ := some remote_address,
    remote_oob_data_le_sc_c_ := some le_sc_confirmation_value,
    remote_oob_data_le_sc_r_ := some le_sc_random_value }

/-- Configuration setter `SetIoCapability` (facade configuration API). -/
def SetIoCapability (s : SMState) (c : IoCapability) : SMState :=
  { s with local_io_capability_ := c }

/-- Configuration setter `SetAuthenticationRequirements`. -/
def SetAuthenticationRequirements (s : SMState) (ar : AuthenticationRequirements) : SMState :=
  { s with local_authentication_requirements_ := ar }

/-- Configuration setter `SetOobDataPresent`. -/
def SetOobDataPresent (s : SMState) (p : OobDataPresent) : SMState :=
  { s with local_oob_data_present_ := p }

/-- Configuration setter `SetLeIoCapability`. -/
def SetLeIoCapability (s : SMState) (c : LeIoCapability) : SMState :=
  { s with local_le_io_capability_ := c }

/-- Configuration setter `SetLeAuthRequirements`. -/
def SetLeAuthRequirements (s : SMState) (ar : Nat) : SMState :=
  { s with local_le_auth_req_ := ar }

/-- Configuration setter `SetLeOobDataPresent`. -/
def SetLeOobDataPresent (s : SMState) (p : OobDataFlag) : SMState :=
  { s with local_le_oob_data_present_ := p }

/-- One externally triggered orchestrator task: an application request, a
configuration call, or the terminal callback of a pairing handler reaching
`OnPairingHandlerComplete` (all serialized on the SM handler, spec
section 5). -/
inductive Command where
  | createBond (a : AddressWithType)
  | createBondLe (a : AddressWithType)
  | cancelBond (a : AddressWithType)
  | removeBond (a : AddressWithType)
  | onPairingHandlerComplete (addr : Address) (result : PairingResultOrFailure)
  | enforceSecurityPolicy (a : AddressWithType) (p : SecurityPolicy)
  | enforceLeSecurityPolicy (a : AddressWithType) (p : SecurityPolicy)
  | setOutOfBandData (a : AddressWithType) (c r : Octet16)
  | setIoCapability (c : IoCapability)
  | setAuthenticationRequirements (ar : AuthenticationRequirements)
  | setOobDataPresent (p : OobDataPresent)
  | setLeIoCapability (c : LeIoCapability)
  | setLeAuthRequirements (ar : Nat)
  | setLeOobDataPresent (p : OobDataFlag)
deriving DecidableEq, Repr

/-- The serialized execution of one orchestrator task. -/
def step (s : SMState) : Command → SMState × List Event
  | Command.createBond a => CreateBond s a
  | Command.createBondLe a => CreateBondLe s a
  | Command.cancelBond a => CancelBond s a
  | Command.removeBond a => ((RemoveBond s a).1, (RemoveBond s a).2.1)
  | Command.onPairingHandlerComplete addr res => OnPairingHandlerComplete s addr res
  | Command.enforceSecurityPolicy a p => EnforceSecurityPolicy s a p
  | Command.enforceLeSecurityPolicy a p => EnforceLeSecurityPolicy s a p
  | Command.setOutOfBandData a c r => (SetOutOfBandData s a c r, [])
  | Command.setIoCapability c => (SetIoCapability s c, [])
  | Command.setAuthenticationRequirements ar => (SetAuthenticationRequirements s ar, [])
  | Command.setOobDataPresent p => (SetOobDataPresent s p, [])
  | Command.setLeIoCapability c => (SetLeIoCapability s c, [])
  | Command.setLeAuthRequirements ar => (SetLeAuthRequirements s ar, [])
  | Command.setLeOobDataPresent p => (SetLeOobDataPresent s p, [])

/-- Sequential execution of a list of orchestrator tasks, accumulating the
emitted event trace. -/
def run (s : SMState) : List Command → SMState × List Event
  | [] => (s, [])
  | c :: cs =>
    let r1 := step s c
    let r2 := run r1.1 cs
    (r2.1, r1.2 ++ r2.2)

/-- The orchestrator state right after construction and `Init()`: the
security database loaded from storage, every table empty, and the
configuration members at their header-initializer defaults (header lines
225-230). -/
def initialState (db : List (AddressWithType × SecurityRecord)) : SMState :=
  { security_database_ := db
    pairing_handler_map_ := []
    local_io_capability_ := kDefaultIoCapability
    local_authentication_requirements_ := kDefaultAuthenticationRequirements
    local_oob_data_present_ := kDefaultOobDataPresent
    local_le_io_capability_ := LeIoCapability.no_input_no_output
    local_le_auth_req_ := AuthReqMaskBondingFlag ||| AuthReqMaskMitm ||| AuthReqMaskSc
    local_le_oob_data_present_ := OobDataFlag.not_present
    local_le_oob_data_ := none
    remote_oob_data_address_ := none
    remote_oob_data_le_sc_c_ := none
    remote_oob_data_le_sc_r_ := none
    enforce_security_policy_callback_map_ := []
    all_channels_ := []
    next_negotiation_id := 0
    next_callback_id := 0 }

/-- One teardown effect of the destructor (header lines 60-67): the calls
made on a stored channel entry, and the destruction of the entry itself when
`all_channels_` is destroyed at the end of the destructor. -/
inductive TeardownAction where
  | unregisterDequeue (channel_id : Nat)
  | releaseEnqueueBuffer (channel_id : Nat)
  | destroyEntry (channel_id : Nat)
deriving DecidableEq, Repr

/-- The destructor's effect sequence, from the header's inline body: the loop
`for (auto& stored_chan : all_channels_)` calls `UnregisterDequeue()` on each
channel's queue up-end and resets each enqueue buffer, and afterwards the
member `all_channels_` is destroyed, destroying every entry. -/
def destructorActions (chans : List LeFixedChannelEntry) : List TeardownAction :=
  (chans.flatMap fun c =>
    [TeardownAction.unregisterDequeue c.channel_id,
     TeardownAction.releaseEnqueueBuffer c.channel_id]) ++
  chans.map (fun c => TeardownAction.destroyEntry c.channel_id)

/-- Checker of a teardown sequence against the registered dequeue callbacks
and live enqueue buffers: destroying an entry whose dequeue callback is
still registered, or whose enqueue buffer is still live, fails the check. -/
def teardownSafe : List TeardownAction → List Nat → List Nat → Bool
  | [], _, _ => true
  | TeardownAction.unregisterDequeue i :: rest, reg, buf =>
    teardownSafe rest (reg.filter (fun j => decide (¬ j = i))) buf
  | TeardownAction.releaseEnqueueBuffer i :: rest, reg, buf =>
    teardownSafe rest reg (buf.filter (fun j => decide (¬ j = i)))
  | TeardownAction.destroyEntry i :: rest, reg, buf =>
    decide (i ∉ reg) && decide (i ∉ buf) && teardownSafe rest reg buf

/-- Whether an event is the start of the negotiation identified by `nid`. -/
def isStartOf (nid : Nat) : Event → Bool
  | Event.negotiationStarted n _ => decide (n = nid)
  | _ => false

/-- Whether an event is `OnPairingHandlerComplete`'s processing of the
negotiation identified by `nid`. -/
def isCompletionOf (nid : Nat) : Event → Bool
  | Event.negotiationCompleted n _ => decide (n = nid)
  | _ => false

/-- Whether an event is the resolution of the policy-enforcement result
callback identified by `cb`. -/
def isResolutionOf (cb : Nat) : Event → Bool
  | Event.policyResult c _ => decide (c = cb)
  | _ => false

/-- Whether an event starts any negotiation. -/
def isStartEvent : Event → Bool
  | Event.negotiationStarted _ _ => true
  | _ => false

/-- Number of start events of negotiation `nid` in a trace. -/
def startCount (evs : List Event) (nid : Nat) : Nat := evs.countP (isStartOf nid)

/-- Number of processed completions of negotiation `nid` in a trace. -/
def completionCount (evs : List Event) (nid : Nat) : Nat := evs.countP (isCompletionOf nid)

/-- Number of resolutions of result callback `cb` in a trace. -/
def resolutionCount (evs : List Event) (cb : Nat) : Nat := evs.countP (isResolutionOf cb)

@[simp] theorem isStartOf_deviceBonded (nid : Nat) (a : AddressWithType) :
    isStartOf nid (Event.deviceBonded a) = false := rfl

@[simp] theorem isStartOf_deviceBondFailed (nid : Nat) (a : AddressWithType)
    (r : PairingFailureReason) : isStartOf nid (Event.deviceBondFailed a r) = false := rfl

@[simp] theorem isStartOf_deviceUnbonded (nid : Nat) (a : AddressWithType) :
    isStartOf nid (Event.deviceUnbonded a) = false := rfl

@[simp] theorem isStartOf_policyResult (nid c : Nat) (b : Bool) :
    isStartOf nid (Event.policyResult c b) = false := rfl

@[simp] theorem isStartOf_negotiationStarted (nid n : Nat) (a : AddressWithType) :
    isStartOf nid (Event.negotiationStarted n a) = decide (n = nid) := rfl

@[simp] theorem isStartOf_negotiationCompleted (nid n : Nat) (a : AddressWithType) :
    isStartOf nid (Event.negotiationCompleted n a) = false := rfl

@[simp] theorem isCompletionOf_deviceBonded (nid : Nat) (a : AddressWithType) :
    isCompletionOf nid (Event.deviceBonded a) = false := rfl

@[simp] theorem isCompletionOf_deviceBondFailed (nid : Nat) (a : AddressWithType)
    (r : PairingFailureReason) : isCompletionOf nid (Event.deviceBondFailed a r) = false := rfl

@[simp] theorem isCompletionOf_deviceUnbonded (nid : Nat) (a : AddressWithType) :
    isCompletionOf nid (Event.deviceUnbonded a) = false := rfl

@[simp] theorem isCompletionOf_policyResult (nid c : Nat) (b : Bool) :
    isCompletionOf nid (Event.policyResult c b) = false := rfl

@[simp] theorem isCompletionOf_negotiationStarted (nid n : Nat) (a : AddressWithType) :
    isCompletionOf nid (Event.negotiationStarted n a) = false := rfl

@[simp] theorem isCompletionOf_negotiationCompleted (nid n : Nat) (a : AddressWithType) :
    isCompletionOf nid (Event.negotiationCompleted n a) = decide (n = nid) := rfl

@[simp] theorem isResolutionOf_deviceBonded (cb : Nat) (a : AddressWithType) :
    isResolutionOf cb (Event.deviceBonded a) = false := rfl

@[simp] theorem isResolutionOf_deviceBondFailed (cb : Nat) (a : AddressWithType)
    (r : PairingFailureReason) : isResolutionOf cb (Event.deviceBondFailed a r) = false := rfl

@[simp] theorem isResolutionOf_deviceUnbonded (cb : Nat) (a : AddressWithType) :
    isResolutionOf cb (Event.deviceUnbonded a) = false := rfl

@[simp] theorem isResolutionOf_policyResult (cb c : Nat) (b : Bool) :
    isResolutionOf cb (Event.policyResult c b) = decide (c = cb) := rfl

@[simp] theorem isResolutionOf_negotiationStarted (cb n : Nat) (a : AddressWithType) :
    isResolutionOf cb (Event.negotiationStarted n a) = false := rfl

@[simp] theorem isResolutionOf_negotiationCompleted (cb n : Nat) (a : AddressWithType) :
    isResolutionOf cb (Event.negotiationCompleted n a) = false := rfl

@[simp] theorem startCount_nil (nid : Nat) : startCount [] nid = 0 := rfl

@[simp] theorem completionCount_nil (nid : Nat) : completionCount [] nid = 0 := rfl

@[simp] theorem resolutionCount_nil (cb : Nat) : resolutionCount [] cb = 0 := rfl

@[simp] theorem startCount_append (l₁ l₂ : List Event) (nid : Nat) :
    startCount (l₁ ++ l₂) nid = startCount l₁ nid + startCount l₂ nid :=
  List.countP_append _ _ _

@[simp] theorem completionCount_append (l₁ l₂ : List Event) (nid : Nat) :
    completionCount (l₁ ++ l₂) nid = completionCount l₁ nid + completionCount l₂ nid :=
  List.countP_append _ _ _

@[simp] theorem resolutionCount_append (l₁ l₂ : List Event) (cb : Nat) :
    resolutionCount (l₁ ++ l₂) cb = resolutionCount l₁ cb + resolutionCount l₂ cb :=
  List.countP_append _ _ _

@[simp] theorem startCount_cons (e : Event) (l : List Event) (nid : Nat) :
    startCount (e :: l) nid = startCount l nid + (if isStartOf nid e then 1 else 0) :=
  List.countP_cons _ _ _

@[simp] theorem completionCount_cons (e : Event) (l : List Event) (nid : Nat) :
    completionCount (e :: l) nid = completionCount l nid + (if isCompletionOf nid e then 1 else 0) :=
  List.countP_cons _ _ _

@[simp] theorem resolutionCount_cons (e : Event) (l : List Event) (cb : Nat) :
    resolutionCount (e :: l) cb = resolutionCount l cb + (if isResolutionOf cb e then 1 else 0) :=
  List.countP_cons _ _ _

theorem resolutionCount_map_policyResult {α : Type} (l : List α) (f : α → Nat) (g : α → Bool)
    (cb : Nat) :
    resolutionCount (l.map (fun e => Event.policyResult (f e) (g e))) cb =
      l.countP (fun e => decide (f e = cb)) := by
  rw [resolutionCount, List.countP_map]
  rfl

theorem assocLookup_cons {κ τ : Type} [DecidableEq κ] (e : κ × τ) (m : List (κ × τ)) (a : κ) :
    assocLookup (e :: m) a = if e.1 = a then some e.2 else assocLookup m a := rfl

theorem assocLookup_mem {κ τ : Type} [DecidableEq κ] {m : List (κ × τ)} {a : κ} {v : τ}
    (h : assocLookup m a = some v) : (a, v) ∈ m := by
  induction m with
  | nil => simp [assocLookup] at h
  | cons e m ih =>
    obtain ⟨k, w⟩ := e
    by_cases hk : k = a
    · subst hk
      simp [assocLookup] at h
      subst h
      exact List.mem_cons_self _ _
    · simp [assocLookup, hk] at h
      exact List.mem_cons_of_mem _ (ih h)

theorem assocLookup_eq_none_iff {κ τ : Type} [DecidableEq κ] {m : List (κ × τ)} {a : κ} :
    assocLookup m a = none ↔ ∀ e ∈ m, ¬ e.1 = a := by
  induction m with
  | nil => simp [assocLookup]
  | cons e m ih =>
    by_cases hk : e.1 = a
    · simp [assocLookup, hk]
    · simp [assocLookup, hk, ih]

theorem assocLookup_isSome_of_mem {κ τ : Type} [DecidableEq κ] {m : List (κ × τ)}
    {e : κ × τ} (h : e ∈ m) : (assocLookup m e.1).isSome = true := by
  induction m with
  | nil => cases h
  | cons e' m ih =>
    rcases List.mem_cons.mp h with rfl | h'
    · simp [assocLookup]
    · by_cases hk : e'.1 = e.1
      · simp [assocLookup, hk]
      · simp [assocLookup, hk, ih h']

theorem assocErase_cons {κ τ : Type} [DecidableEq κ] (e : κ × τ) (m : List (κ × τ)) (a : κ) :
    assocErase (e :: m) a = if e.1 = a then assocErase m a else e :: assocErase m a := by
  by_cases h : e.1 = a <;> simp [assocErase, h]

theorem assocLookup_assocErase {κ τ : Type} [DecidableEq κ] (m : List (κ × τ)) (a b : κ) :
    assocLookup (assocErase m a) b = if b = a then none else assocLookup m b := by
  induction m with
  | nil => by_cases hb : b = a <;> simp [assocErase, assocLookup, hb]
  | cons e m ih =>
    rw [assocErase_cons]
    by_cases ha : e.1 = a
    · rw [if_pos ha, ih, assocLookup_cons]
      by_cases hb : b = a
      · simp [hb]
      · have hne : ¬ e.1 = b := fun h => hb (h.symm.trans ha)
        simp [hb, hne]
    · rw [if_neg ha, assocLookup_cons, ih, assocLookup_cons]
      by_cases hb : b = a
      · have hne : ¬ e.1 = b := fun h => ha (h.trans hb)
        simp [hb, hne, ha]
      · simp [hb]

theorem mem_assocErase {κ τ : Type} [DecidableEq κ] {m : List (κ × τ)} {a : κ} {e : κ × τ} :
    e ∈ assocErase m a ↔ e ∈ m ∧ ¬ e.1 = a := by
  simp [assocErase, List.mem_filter]

theorem keys_assocErase_sublist {κ τ : Type} [DecidableEq κ] (m : List (κ × τ)) (a : κ) :
    ((assocErase m a).map Prod.fst).Sublist (m.map Prod.fst) :=
  (List.filter_sublist m).map Prod.fst

theorem nids_assocErase_sublist (m : List (Address × PairingHandler)) (a : Address) :
    ((assocErase m a).map (fun e => e.2.negotiation_id)).Sublist
      (m.map (fun e => e.2.negotiation_id)) :=
  (List.filter_sublist m).map _

theorem markCancelled_keys (m : List (Address × PairingHandler)) (a : Address) :
    (markCancelled m a).map Prod.fst = m.map Prod.fst := by
  induction m with
  | nil => rfl
  | cons e m ih =>
    by_cases hk : e.1 = a <;> simp [markCancelled, hk] at * <;> exact ih

theorem markCancelled_nids (m : List (Address × PairingHandler)) (a : Address) :
    (markCancelled m a).map (fun e => e.2.negotiation_id) =
      m.map (fun e => e.2.negotiation_id) := by
  induction m with
  | nil => rfl
  | cons e m ih =>
    by_cases hk : e.1 = a <;> simp [markCancelled, hk] at * <;> exact ih

theorem mem_markCancelled {m : List (Address × PairingHandler)} {a : Address}
    {e : Address × PairingHandler} (h : e ∈ markCancelled m a) :
    ∃ e0 ∈ m, e = e0 ∨ e = (e0.1, { e0.2 with cancelled := true }) := by
  rw [markCancelled] at h
  obtain ⟨e0, he0, hfe⟩ := List.mem_map.mp h
  refine ⟨e0, he0, ?_⟩
  by_cases hk : e0.1 = a
  · right; rw [if_pos hk] at hfe; exact hfe.symm
  · left; rw [if_neg hk] at hfe; exact hfe.symm

theorem assocLookup_isSome_iff_mem_keys {κ τ : Type} [DecidableEq κ] (m : List (κ × τ))
    (b : κ) : (assocLookup m b).isSome = true ↔ b ∈ m.map Prod.fst := by
  induction m with
  | nil => simp [assocLookup]
  | cons e m ih =>
    by_cases hk : e.1 = b
    · simp [assocLookup, hk]
    · have hk' : ¬ b = e.1 := fun h => hk h.symm
      simp [assocLookup, hk, hk', ih]

theorem assocLookup_markCancelled_isSome (m : List (Address × PairingHandler))
    (a : Address) (b : Address) :
    (assocLookup (markCancelled m a) b).isSome = (assocLookup m b).isSome := by
  have h1 := assocLookup_isSome_iff_mem_keys (markCancelled m a) b
  have h2 := assocLookup_isSome_iff_mem_keys m b
  rw [markCancelled_keys] at h1
  by_cases hb : b ∈ m.map Prod.fst
  · rw [h1.mpr hb, h2.mpr hb]
  · have e1 : (assocLookup (markCancelled m a) b).isSome = false :=
      Bool.not_eq_true _ |>.mp (fun h => hb (h1.mp h))
    have e2 : (assocLookup m b).isSome = false :=
      Bool.not_eq_true _ |>.mp (fun h => hb (h2.mp h))
    rw [e1, e2]

theorem nodup_map_ne {α β : Type} {f : α → β} {l : List α} (h : (l.map f).Nodup)
    {x y : α} (hx : x ∈ l) (hy : y ∈ l) (hxy : ¬ x = y) : ¬ f x = f y := by
  induction l with
  | nil => cases hx
  | cons a t ih =>
    rw [List.map_cons, List.nodup_cons] at h
    rcases List.mem_cons.mp hx with rfl | hx'
    · rcases List.mem_cons.mp hy with rfl | hy'
      · exact absurd rfl hxy
      · intro hf
        exact h.1 (hf ▸ List.mem_map_of_mem f hy')
    · rcases List.mem_cons.mp hy with rfl | hy'
      · intro hf
        exact h.1 (hf ▸ List.mem_map_of_mem f hx')
      · exact ih h.2 hx' hy'

theorem dispatch_eq_of_active {s : SMState} {peer : AddressWithType} {t : Transport}
    {li : Bool} {h0 : PairingHandler}
    (hl : assocLookup s.pairing_handler_map_ peer.address = some h0) :
    DispatchPairingHandler s peer t li = (s, []) := by
  unfold DispatchPairingHandler
  rw [hl]
  try rfl

theorem dispatch_eq_of_free {s : SMState} {peer : AddressWithType} {t : Transport} {li : Bool}
    (hl : assocLookup s.pairing_handler_map_ peer.address = none) :
    DispatchPairingHandler s peer t li =
      ({ s with
          pairing_handler_map_ :=
            (peer.address, makeHandler s peer t li) :: s.pairing_handler_map_,
          next_negotiation_id := s.next_negotiation_id + 1 },
       [Event.negotiationStarted s.next_negotiation_id peer]) := by
  unfold DispatchPairingHandler
  rw [hl]
  try rfl

theorem createBond_eq_of_bonded {s : SMState} {a : AddressWithType}
    (hb : isBondedRecord (recordLookup s a) = true) :
    CreateBond s a = (s, [Event.deviceBonded a]) := by
  simp [CreateBond, hb]

theorem createBond_eq_of_not_bonded {s : SMState} {a : AddressWithType}
    (hb : isBondedRecord (recordLookup s a) = false) :
    CreateBond s a = DispatchPairingHandler s a Transport.classic true := by
  simp [CreateBond, hb]

theorem createBondLe_eq_of_bonded {s : SMState} {a : AddressWithType}
    (hb : isBondedRecord (recordLookup s a) = true) :
    CreateBondLe s a = (s, [Event.deviceBonded a]) := by
  simp [CreateBondLe, hb]

theorem createBondLe_eq_of_not_bonded {s : SMState} {a : AddressWithType}
    (hb : isBondedRecord (recordLookup s a) = false) :
    CreateBondLe s a = DispatchPairingHandler s a Transport.le true := by
  simp [CreateBondLe, hb]

theorem cancelBond_eq_of_none {s : SMState} {a : AddressWithType}
    (hl : assocLookup s.pairing_handler_map_ a.address = none) :
    CancelBond s a = (s, []) := by
  unfold CancelBond
  rw [hl]
  try rfl

theorem cancelBond_eq_of_some {s : SMState} {a : AddressWithType} {h0 : PairingHandler}
    (hl : assocLookup s.pairing_handler_map_ a.address = some h0) :
    CancelBond s a =
      ({ s with pairing_handler_map_ := markCancelled s.pairing_handler_map_ a.address }, []) := by
  unfold CancelBond
  rw [hl]
  try rfl

theorem removeBond_eq_of_none {s : SMState} {a : AddressWithType}
    (hr : recordLookup s a = none) :
    RemoveBond s a = (s, [], false) := by
  unfold RemoveBond
  rw [hr]
  try rfl

theorem removeBond_eq_of_some {s : SMState} {a : AddressWithType} {r0 : SecurityRecord}
    (hr : recordLookup s a = some r0) :
    RemoveBond s a =
      (let s1 := { s with security_database_ := assocErase s.security_database_ a }
       let r2 := CancelBond s1 a
       ({ r2.1 with
           all_channels_ := r2.1.all_channels_.filter (fun c => decide (¬ c.peer = a)) },
        [Event.deviceUnbonded a], true)) := by
  unfold RemoveBond
  rw [hr]
  try rfl

theorem complete_eq_of_none {s : SMState} {addr : Address} {result : PairingResultOrFailure}
    (hl : assocLookup s.pairing_handler_map_ addr = none) :
    OnPairingHandlerComplete s addr result = (s, []) := by
  unfold OnPairingHandlerComplete
  rw [hl]
  try rfl

theorem complete_eq_of_some {s : SMState} {addr : Address} {result : PairingResultOrFailure}
    {h0 : PairingHandler} (hl : assocLookup s.pairing_handler_map_ addr = some h0) :
    OnPairingHandlerComplete s addr result =
      ({ s with
          pairing_handler_map_ := assocErase s.pairing_handler_map_ addr,
          security_database_ := completeRecordUpdate s.security_database_ h0
            (if h0.cancelled then PairingResultOrFailure.failure PairingFailureReason.cancelled
             else result),
          enforce_security_policy_callback_map_ :=
            removePendingFor s.enforce_security_policy_callback_map_ addr },
       Event.negotiationCompleted h0.negotiation_id h0.peer ::
         bondEventFor h0.peer
           (if h0.cancelled then PairingResultOrFailure.failure PairingFailureReason.cancelled
            else result) ::
         resolutionEventsFor s.enforce_security_policy_callback_map_ addr
           (completeRecordUpdate s.security_database_ h0
             (if h0.cancelled then PairingResultOrFailure.failure PairingFailureReason.cancelled
              else result))) := by
  unfold OnPairingHandlerComplete
  rw [hl]
  try rfl

@[simp] theorem isStartOf_bondEventFor (nid : Nat) (peer : AddressWithType)
    (res : PairingResultOrFailure) : isStartOf nid (bondEventFor peer res) = false := by
  cases res <;> rfl

@[simp] theorem isCompletionOf_bondEventFor (nid : Nat) (peer : AddressWithType)
    (res : PairingResultOrFailure) : isCompletionOf nid (bondEventFor peer res) = false := by
  cases res <;> rfl

@[simp] theorem isResolutionOf_bondEventFor (cb : Nat) (peer : AddressWithType)
    (res : PairingResultOrFailure) : isResolutionOf cb (bondEventFor peer res) = false := by
  cases res <;> rfl

@[simp] theorem startCount_resolutionEventsFor
    (m : List (AddressWithType × SecurityPolicy × Nat)) (a : Address)
    (db : List (AddressWithType × SecurityRecord)) (nid : Nat) :
    startCount (resolutionEventsFor m a db) nid = 0 := by
  rw [resolutionEventsFor, startCount, List.countP_map]
  exact List.countP_eq_zero.mpr (fun e _ => by simp [Function.comp])

@[simp] theorem completionCount_resolutionEventsFor
    (m : List (AddressWithType × SecurityPolicy × Nat)) (a : Address)
    (db : List (AddressWithType × SecurityRecord)) (nid : Nat) :
    completionCount (resolutionEventsFor m a db) nid = 0 := by
  rw [resolutionEventsFor, completionCount, List.countP_map]
  exact List.countP_eq_zero.mpr (fun e _ => by simp [Function.comp])

@[simp] theorem startCount_displacedEvents
    (m : List (AddressWithType × SecurityPolicy × Nat)) (remote : AddressWithType) (nid : Nat) :
    startCount (displacedEvents m remote) nid = 0 := by
  rw [displacedEvents, startCount, List.countP_map]
  exact List.countP_eq_zero.mpr (fun e _ => by simp [Function.comp])

@[simp] theorem completionCount_displacedEvents
    (m : List (AddressWithType × SecurityPolicy × Nat)) (remote : AddressWithType) (nid : Nat) :
    completionCount (displacedEvents m remote) nid = 0 := by
  rw [displacedEvents, completionCount, List.countP_map]
  exact List.countP_eq_zero.mpr (fun e _ => by simp [Function.comp])

theorem resolutionCount_resolutionEventsFor
    (m : List (AddressWithType × SecurityPolicy × Nat)) (a : Address)
    (db : List (AddressWithType × SecurityRecord)) (cb : Nat) :
    resolutionCount (resolutionEventsFor m a db) cb =
      (pendingEntriesFor m a).countP (fun e => decide (e.2.2 = cb)) := by
  rw [resolutionEventsFor, resolutionCount, List.countP_map]
  have hp : (isResolutionOf cb ∘
      fun e : AddressWithType × SecurityPolicy × Nat =>
        Event.policyResult e.2.2 (satisfiesPolicy (assocLookup db e.1) e.2.1)) =
      fun e => decide (e.2.2 = cb) := by
    funext e
    simp [Function.comp]
  rw [hp]

theorem resolutionCount_displacedEvents
    (m : List (AddressWithType × SecurityPolicy × Nat)) (remote : AddressWithType) (cb : Nat) :
    resolutionCount (displacedEvents m remote) cb =
      (entriesFor m remote).countP (fun e => decide (e.2.2 = cb)) := by
  rw [displacedEvents, resolutionCount, List.countP_map]
  have hp : (isResolutionOf cb ∘
      fun e : AddressWithType × SecurityPolicy × Nat => Event.policyResult e.2.2 false) =
      fun e => decide (e.2.2 = cb) := by
    funext e
    simp [Function.comp]
  rw [hp]

theorem countP_key_eq_zero {α : Type} {l : List α} {f : α → Nat} {cb : Nat}
    (h : ∀ e ∈ l, ¬ f e = cb) : l.countP (fun e => decide (f e = cb)) = 0 :=
  List.countP_eq_zero.mpr (fun e he => by simpa using h e he)

theorem countP_key_eq_one_of_nodup {α : Type} {l : List α} {f : α → Nat} {cb : Nat}
    (hnd : (l.map f).Nodup) {e : α} (he : e ∈ l) (hcb : f e = cb) :
    l.countP (fun x => decide (f x = cb)) = 1 := by
  induction l with
  | nil => cases he
  | cons x t ih =>
    rw [List.map_cons, List.nodup_cons] at hnd
    rcases List.mem_cons.mp he with rfl | he'
    · have h0 : t.countP (fun x => decide (f x = cb)) = 0 := by
        refine countP_key_eq_zero (fun y hy hfy => hnd.1 ?_)
        rw [hcb, ← hfy]
        exact List.mem_map_of_mem f hy
      rw [List.countP_cons_of_pos _ _ (by simpa using hcb), h0]
    · have hx : ¬ f x = cb := fun hfx => by
        refine hnd.1 ?_
        rw [hfx, ← hcb]
        exact List.mem_map_of_mem f he'
      rw [List.countP_cons_of_neg _ _ (by simpa using hx)]
      exact ih hnd.2 he'

theorem mem_pendingEntriesFor {m : List (AddressWithType × SecurityPolicy × Nat)} {a : Address}
    {e : AddressWithType × SecurityPolicy × Nat} :
    e ∈ pendingEntriesFor m a ↔ e ∈ m ∧ e.1.address = a := by
  simp [pendingEntriesFor, List.mem_filter]

theorem mem_removePendingFor {m : List (AddressWithType × SecurityPolicy × Nat)} {a : Address}
    {e : AddressWithType × SecurityPolicy × Nat} :
    e ∈ removePendingFor m a ↔ e ∈ m ∧ ¬ e.1.address = a := by
  simp [removePendingFor, List.mem_filter]

theorem mem_entriesFor {m : List (AddressWithType × SecurityPolicy × Nat)}
    {remote : AddressWithType} {e : AddressWithType × SecurityPolicy × Nat} :
    e ∈ entriesFor m remote ↔ e ∈ m ∧ e.1 = remote := by
  simp [entriesFor, List.mem_filter]

theorem mem_removeEntriesFor {m : List (AddressWithType × SecurityPolicy × Nat)}
    {remote : AddressWithType} {e : AddressWithType × SecurityPolicy × Nat} :
    e ∈ removeEntriesFor m remote ↔ e ∈ m ∧ ¬ e.1 = remote := by
  simp [removeEntriesFor, List.mem_filter]

theorem cbs_pendingEntriesFor_sublist (m : List (AddressWithType × SecurityPolicy × Nat))
    (a : Address) :
    ((pendingEntriesFor m a).map (fun e => e.2.2)).Sublist (m.map (fun e => e.2.2)) :=
  (List.filter_sublist m).map _

theorem cbs_removePendingFor_sublist (m : List (AddressWithType × SecurityPolicy × Nat))
    (a : Address) :
    ((removePendingFor m a).map (fun e => e.2.2)).Sublist (m.map (fun e => e.2.2)) :=
  (List.filter_sublist m).map _

theorem cbs_removeEntriesFor_sublist (m : List (AddressWithType × SecurityPolicy × Nat))
    (remote : AddressWithType) :
    ((removeEntriesFor m remote).map (fun e => e.2.2)).Sublist (m.map (fun e => e.2.2)) :=
  (List.filter_sublist m).map _

/-- The reachable-state invariant tying the handler table and the
policy-enforcement table to the event trace: handler-table keys and
negotiation identities are unique, a negotiation in the table has not been
completed, every start and completion happens at most once, a started
negotiation is either still active or completed exactly once, and — for the
policy side — every registered callback is unresolved, backed by an active
handler for its entry's bare address, and every allocated callback is either
still pending or resolved exactly once. -/
structure Inv (s : SMState) (evs : List Event) : Prop where
  keys_nodup : (s.pairing_handler_map_.map Prod.fst).Nodup
  nids_nodup : (s.pairing_handler_map_.map (fun e => e.2.negotiation_id)).Nodup
  handler_nid_lt : ∀ e ∈ s.pairing_handler_map_, e.2.negotiation_id < s.next_negotiation_id
  handler_not_completed : ∀ e ∈ s.pairing_handler_map_,
    completionCount evs e.2.negotiation_id = 0
  start_fresh : ∀ nid, s.next_negotiation_id ≤ nid → startCount evs nid = 0
  completion_fresh : ∀ nid, s.next_negotiation_id ≤ nid → completionCount evs nid = 0
  start_le_one : ∀ nid, startCount evs nid ≤ 1
  completion_le_one : ∀ nid, completionCount evs nid ≤ 1
  started_active_or_completed : ∀ nid, 1 ≤ startCount evs nid →
    (∃ e ∈ s.pairing_handler_map_, e.2.negotiation_id = nid) ∨ completionCount evs nid = 1
  cb_lt : ∀ e ∈ s.enforce_security_policy_callback_map_, e.2.2 < s.next_callback_id
  cb_nodup : (s.enforce_security_policy_callback_map_.map (fun e => e.2.2)).Nodup
  cb_unresolved : ∀ e ∈ s.enforce_security_policy_callback_map_,
    resolutionCount evs e.2.2 = 0
  cb_backed : ∀ e ∈ s.enforce_security_policy_callback_map_,
    (assocLookup s.pairing_handler_map_ e.1.address).isSome = true
  cb_fresh : ∀ cb, s.next_callback_id ≤ cb → resolutionCount evs cb = 0
  resolution_le_one : ∀ cb, resolutionCount evs cb ≤ 1
  cb_pending_or_resolved : ∀ cb, cb < s.next_callback_id →
    (∃ e ∈ s.enforce_security_policy_callback_map_, e.2.2 = cb) ∨ resolutionCount evs cb = 1

theorem inv_initial (db : List (AddressWithType × SecurityRecord)) :
    Inv (initialState db) [] := by
  refine ⟨?_, ?_, ?_, ?_, ?_, ?_, ?_, ?_, ?_, ?_, ?_, ?_, ?_, ?_, ?_, ?_⟩ <;>
    simp [initialState]

theorem inv_core_congr {s s' : SMState} {evs : List Event} (h : Inv s evs)
    (hmap : s'.pairing_handler_map_ = s.pairing_handler_map_)
    (hemap : s'.enforce_security_policy_callback_map_ = s.enforce_security_policy_callback_map_)
    (hnid : s'.next_negotiation_id = s.next_negotiation_id)
    (hcb : s'.next_callback_id = s.next_callback_id) : Inv s' evs := by
  refine ⟨?_, ?_, ?_, ?_, ?_, ?_, ?_, ?_, ?_, ?_, ?_, ?_, ?_, ?_, ?_, ?_⟩ <;>
    (try simp only [hmap, hemap, hnid, hcb]) <;>
    first
      | exact h.keys_nodup
      | exact h.nids_nodup
      | exact h.handler_nid_lt
      | exact h.handler_not_completed
      | exact h.start_fresh
      | exact h.completion_fresh
      | exact h.start_le_one
      | exact h.completion_le_one
      | exact h.started_active_or_completed
      | exact h.cb_lt
      | exact h.cb_nodup
      | exact h.cb_unresolved
      | exact h.cb_backed
      | exact h.cb_fresh
      | exact h.resolution_le_one
      | exact h.cb_pending_or_resolved

/-- A batch of events that contains no negotiation start, no negotiation
completion, and no callback resolution. -/
def NeutralEvents (new : List Event) : Prop :=
  (∀ nid, startCount new nid = 0) ∧ (∀ nid, completionCount new nid = 0) ∧
    (∀ cb, resolutionCount new cb = 0)

theorem neutralEvents_nil : NeutralEvents [] := by
  refine ⟨?_, ?_, ?_⟩ <;> intro x <;> rfl

theorem neutralEvents_deviceBonded (a : AddressWithType) :
    NeutralEvents [Event.deviceBonded a] := by
  refine ⟨?_, ?_, ?_⟩ <;> intro x <;> simp

theorem neutralEvents_deviceUnbonded (a : AddressWithType) :
    NeutralEvents [Event.deviceUnbonded a] := by
  refine ⟨?_, ?_, ?_⟩ <;> intro x <;> simp

theorem inv_nonevent {s s' : SMState} {evs new : List Event} (h : Inv s evs)
    (hmap : s'.pairing_handler_map_ = s.pairing_handler_map_)
    (hemap : s'.enforce_security_policy_callback_map_ = s.enforce_security_policy_callback_map_)
    (hnid : s'.next_negotiation_id = s.next_negotiation_id)
    (hcb : s'.next_callback_id = s.next_callback_id)
    (hneu : NeutralEvents new) : Inv s' (evs ++ new) := by
  obtain ⟨hns, hnc, hnr⟩ := hneu
  have hsc : ∀ nid, startCount (evs ++ new) nid = startCount evs nid := by
    intro nid
    rw [startCount_append, hns, Nat.add_zero]
  have hcc : ∀ nid, completionCount (evs ++ new) nid = completionCount evs nid := by
    intro nid
    rw [completionCount_append, hnc, Nat.add_zero]
  have hrc : ∀ cb, resolutionCount (evs ++ new) cb = resolutionCount evs cb := by
    intro cb
    rw [resolutionCount_append, hnr, Nat.add_zero]
  refine ⟨?_, ?_, ?_, ?_, ?_, ?_, ?_, ?_, ?_, ?_, ?_, ?_, ?_, ?_, ?_, ?_⟩ <;>
    (try simp only [hmap, hemap, hnid, hcb, hsc, hcc, hrc]) <;>
    first
      | exact h.keys_nodup
      | exact h.nids_nodup
      | exact h.handler_nid_lt
      | exact h.handler_not_completed
      | exact h.start_fresh
      | exact h.completion_fresh
      | exact h.start_le_one
      | exact h.completion_le_one
      | exact h.started_active_or_completed
      | exact h.cb_lt
      | exact h.cb_nodup
      | exact h.cb_unresolved
      | exact h.cb_backed
      | exact h.cb_fresh
      | exact h.resolution_le_one
      | exact h.cb_pending_or_resolved

theorem exists_nid_iff (m : List (Address × PairingHandler)) (nid : Nat) :
    (∃ e ∈ m, e.2.negotiation_id = nid) ↔ nid ∈ m.map (fun e => e.2.negotiation_id) :=
  Iff.symm List.mem_map

theorem cancelBond_snd (s : SMState) (a : AddressWithType) : (CancelBond s a).2 = [] := by
  cases hl : assocLookup s.pairing_handler_map_ a.address with
  | none => rw [cancelBond_eq_of_none hl]
  | some h0 => rw [cancelBond_eq_of_some hl]

theorem inv_markCancelled {s : SMState} {evs : List Event} (h : Inv s evs) (a : Address) :
    Inv { s with pairing_handler_map_ := markCancelled s.pairing_handler_map_ a } evs := by
  refine ⟨?_, ?_, ?_, ?_, ?_, ?_, ?_, ?_, ?_, ?_, ?_, ?_, ?_, ?_, ?_, ?_⟩
  · show (List.map Prod.fst (markCancelled s.pairing_handler_map_ a)).Nodup
    rw [markCancelled_keys]
    exact h.keys_nodup
  · show (List.map _ (markCancelled s.pairing_handler_map_ a)).Nodup
    rw [markCancelled_nids]
    exact h.nids_nodup
  · intro e he
    obtain ⟨e0, he0, hcase⟩ := mem_markCancelled he
    rcases hcase with heq | heq
    · rw [heq]
      exact h.handler_nid_lt e0 he0
    · rw [heq]
      simpa using h.handler_nid_lt e0 he0
  · intro e he
    obtain ⟨e0, he0, hcase⟩ := mem_markCancelled he
    rcases hcase with heq | heq
    · rw [heq]
      exact h.handler_not_completed e0 he0
    · rw [heq]
      simpa using h.handler_not_completed e0 he0
  · exact h.start_fresh
  · exact h.completion_fresh
  · exact h.start_le_one
  · exact h.completion_le_one
  · intro nid h1
    rcases h.started_active_or_completed nid h1 with he | hc
    · left
      rw [exists_nid_iff, markCancelled_nids]
      exact (exists_nid_iff _ _).mp he
    · exact Or.inr hc
  · exact h.cb_lt
  · exact h.cb_nodup
  · exact h.cb_unresolved
  · intro e he
    show (assocLookup (markCancelled s.pairing_handler_map_ a) e.1.address).isSome = true
    rw [assocLookup_markCancelled_isSome]
    exact h.cb_backed e he
  · exact h.cb_fresh
  · exact h.resolution_le_one
  · exact h.cb_pending_or_resolved

theorem inv_cancelBond {s : SMState} {evs : List Event} (h : Inv s evs) (a : AddressWithType) :
    Inv (CancelBond s a).1 (evs ++ (CancelBond s a).2) := by
  cases hl : assocLookup s.pairing_handler_map_ a.address with
  | none =>
    rw [cancelBond_eq_of_none hl]
    simpa using h
  | some h0 =>
    rw [cancelBond_eq_of_some hl]
    simpa using inv_markCancelled h a.address

theorem inv_removeBond {s : SMState} {evs : List Event} (h : Inv s evs) (a : AddressWithType) :
    Inv (RemoveBond s a).1 (evs ++ (RemoveBond s a).2.1) := by
  cases hr : recordLookup s a with
  | none =>
    rw [removeBond_eq_of_none hr]
    simpa using h
  | some r0 =>
    rw [removeBond_eq_of_some hr]
    have h1 : Inv { s with security_database_ := assocErase s.security_database_ a } evs :=
      inv_core_congr h rfl rfl rfl rfl
    have h2 := inv_cancelBond h1 a
    rw [cancelBond_snd, List.append_nil] at h2
    exact inv_nonevent h2 rfl rfl rfl rfl (neutralEvents_deviceUnbonded a)

theorem inv_dispatch {s : SMState} {evs : List Event} (h : Inv s evs)
    (peer : AddressWithType) (t : Transport) (li : Bool) :
    Inv (DispatchPairingHandler s peer t li).1
        (evs ++ (DispatchPairingHandler s peer t li).2) := by
  cases hl : assocLookup s.pairing_handler_map_ peer.address with
  | some h0 =>
    rw [dispatch_eq_of_active hl]
    simpa using h
  | none =>
    rw [dispatch_eq_of_free hl]
    refine ⟨?_, ?_, ?_, ?_, ?_, ?_, ?_, ?_, ?_, ?_, ?_, ?_, ?_, ?_, ?_, ?_⟩
    · have hkey : peer.address ∉ s.pairing_handler_map_.map Prod.fst := by
        intro hmem
        obtain ⟨e, he, hfe⟩ := List.mem_map.mp hmem
        exact (assocLookup_eq_none_iff.mp hl) e he hfe
      exact List.nodup_cons.mpr ⟨hkey, h.keys_nodup⟩
    · have hnid : s.next_negotiation_id ∉
          s.pairing_handler_map_.map (fun e => e.2.negotiation_id) := by
        intro hmem
        obtain ⟨e, he, hfe⟩ := List.mem_map.mp hmem
        exact Nat.lt_irrefl _ (hfe ▸ h.handler_nid_lt e he)
      exact List.nodup_cons.mpr ⟨hnid, h.nids_nodup⟩
    · intro e he
      rcases List.mem_cons.mp he with rfl | he'
      · exact Nat.lt_succ_self _
      · exact Nat.lt_succ_of_lt (h.handler_nid_lt e he')
    · intro e he
      rcases List.mem_cons.mp he with rfl | he'
      · simpa using h.completion_fresh _ (Nat.le_refl _)
      · simpa using h.handler_not_completed e he'
    · intro nid hge
      replace hge : s.next_negotiation_id + 1 ≤ nid := hge
      have hne : ¬ s.next_negotiation_id = nid := by omega
      have h0 : startCount evs nid = 0 := h.start_fresh nid (by omega)
      simp [h0, hne]
    · intro nid hge
      replace hge : s.next_negotiation_id + 1 ≤ nid := hge
      have h0 : completionCount evs nid = 0 := h.completion_fresh nid (by omega)
      simp [h0]
    · intro nid
      by_cases hne : s.next_negotiation_id = nid
      · have h0 : startCount evs nid = 0 := h.start_fresh nid (by omega)
        simp [h0, hne]
      · have := h.start_le_one nid
        simp [hne]
        omega
    · intro nid
      have := h.completion_le_one nid
      simpa using this
    · intro nid h1
      by_cases hne : s.next_negotiation_id = nid
      · left
        exact ⟨(peer.address, makeHandler s peer t li), List.mem_cons_self _ _, hne⟩
      · have h1' : 1 ≤ startCount evs nid := by
          simp [hne] at h1
          exact h1
        rcases h.started_active_or_completed nid h1' with ⟨e, he, hnid⟩ | hc
        · exact Or.inl ⟨e, List.mem_cons_of_mem _ he, hnid⟩
        · right
          simpa using hc
    · exact h.cb_lt
    · exact h.cb_nodup
    · intro e he
      simpa using h.cb_unresolved e he
    · intro e he
      rw [assocLookup_cons]
      by_cases hx : peer.address = e.1.address
      · simp [hx]
      · simp only [hx, if_false]
        exact h.cb_backed e he
    · intro cb hge
      simpa using h.cb_fresh cb hge
    · intro cb
      simpa using h.resolution_le_one cb
    · intro cb hlt
      rcases h.cb_pending_or_resolved cb hlt with hp | hr
      · exact Or.inl hp
      · right
        simpa using hr

theorem inv_complete {s : SMState} {evs : List Event} (h : Inv s evs) (addr : Address)
    (result : PairingResultOrFailure) :
    Inv (OnPairingHandlerComplete s addr result).1
        (evs ++ (OnPairingHandlerComplete s addr result).2) := by
  cases hl : assocLookup s.pairing_handler_map_ addr with
  | none =>
    rw [complete_eq_of_none hl]
    simpa using h
  | some h0 =>
    rw [complete_eq_of_some hl]
    have hmem : (addr, h0) ∈ s.pairing_handler_map_ := assocLookup_mem hl
    have hnid0 : completionCount evs h0.negotiation_id = 0 := h.handler_not_completed _ hmem
    have hnidlt : h0.negotiation_id < s.next_negotiation_id := h.handler_nid_lt _ hmem
    refine ⟨?_, ?_, ?_, ?_, ?_, ?_, ?_, ?_, ?_, ?_, ?_, ?_, ?_, ?_, ?_, ?_⟩
    · exact (keys_assocErase_sublist _ _).nodup h.keys_nodup
    · exact (nids_assocErase_sublist _ _).nodup h.nids_nodup
    · intro e he
      exact h.handler_nid_lt e (mem_assocErase.mp he).1
    · intro e he
      obtain ⟨hem, hkey⟩ := mem_assocErase.mp he
      have hne : e ≠ (addr, h0) := fun hq => hkey (by rw [hq])
      have hnidne : ¬ e.2.negotiation_id = h0.negotiation_id :=
        nodup_map_ne h.nids_nodup hem hmem hne
      have hnidne' : ¬ h0.negotiation_id = e.2.negotiation_id := fun q => hnidne q.symm
      have h0e : completionCount evs e.2.negotiation_id = 0 := h.handler_not_completed e hem
      simp [h0e, hnidne']
    · intro nid hge
      replace hge : s.next_negotiation_id ≤ nid := hge
      simp [h.start_fresh nid hge]
    · intro nid hge
      replace hge : s.next_negotiation_id ≤ nid := hge
      have hne : ¬ h0.negotiation_id = nid := by omega
      simp [h.completion_fresh nid hge, hne]
    · intro nid
      simpa using h.start_le_one nid
    · intro nid
      by_cases hx : h0.negotiation_id = nid
      · have h00 : completionCount evs nid = 0 := hx ▸ hnid0
        simp [h00, hx]
      · have := h.completion_le_one nid
        simp [hx]
        omega
    · intro nid h1
      have h1' : 1 ≤ startCount evs nid := by simpa using h1
      rcases h.started_active_or_completed nid h1' with ⟨e, he, hnide⟩ | hc
      · by_cases hkey : e.1 = addr
        · have heq : e = (addr, h0) := by
            by_contra hne
            exact (nodup_map_ne h.keys_nodup he hmem hne) (by rw [hkey])
          right
          have hnn : h0.negotiation_id = nid := by rw [← hnide, heq]
          have h00 : completionCount evs nid = 0 := hnn ▸ hnid0
          simp [h00, hnn]
        · left
          exact ⟨e, mem_assocErase.mpr ⟨he, hkey⟩, hnide⟩
      · right
        have h00 : completionCount evs h0.negotiation_id = 0 := hnid0
        have hne : ¬ h0.negotiation_id = nid := fun hq => by
          rw [hq, hc] at h00
          cases h00
        simp [hc, hne]
    · intro e he
      exact h.cb_lt e (mem_removePendingFor.mp he).1
    · exact (cbs_removePendingFor_sublist _ _).nodup h.cb_nodup
    · intro e he
      obtain ⟨hem, hea⟩ := mem_removePendingFor.mp he
      have h0r : resolutionCount evs e.2.2 = 0 := h.cb_unresolved e hem
      have hzero : (pendingEntriesFor s.enforce_security_policy_callback_map_ addr).countP
          (fun x => decide (x.2.2 = e.2.2)) = 0 := by
        refine countP_key_eq_zero (fun y hy hfy => ?_)
        obtain ⟨hym, hya⟩ := mem_pendingEntriesFor.mp hy
        have hne : y ≠ e := fun hq => hea (hq ▸ hya)
        exact (nodup_map_ne h.cb_nodup hym hem hne) hfy
      simp [h0r, resolutionCount_resolutionEventsFor, hzero]
    · intro e he
      obtain ⟨hem, hea⟩ := mem_removePendingFor.mp he
      show (assocLookup (assocErase s.pairing_handler_map_ addr) e.1.address).isSome = true
      rw [assocLookup_assocErase, if_neg hea]
      exact h.cb_backed e hem
    · intro cb hge
      replace hge : s.next_callback_id ≤ cb := hge
      have hzero : (pendingEntriesFor s.enforce_security_policy_callback_map_ addr).countP
          (fun x => decide (x.2.2 = cb)) = 0 := by
        refine countP_key_eq_zero (fun y hy hfy => ?_)
        obtain ⟨hym, _⟩ := mem_pendingEntriesFor.mp hy
        have := h.cb_lt y hym
        omega
      simp [h.cb_fresh cb hge, resolutionCount_resolutionEventsFor, hzero]
    · intro cb
      by_cases hx : ∃ y ∈ pendingEntriesFor s.enforce_security_policy_callback_map_ addr,
        y.2.2 = cb
      · obtain ⟨y, hy, hyc⟩ := hx
        obtain ⟨hym, hya⟩ := mem_pendingEntriesFor.mp hy
        have h0r : resolutionCount evs cb = 0 := hyc ▸ h.cb_unresolved y hym
        have hone : (pendingEntriesFor s.enforce_security_policy_callback_map_ addr).countP
            (fun x => decide (x.2.2 = cb)) = 1 :=
          countP_key_eq_one_of_nodup
            ((cbs_pendingEntriesFor_sublist _ _).nodup h.cb_nodup) hy hyc
        simp [h0r, resolutionCount_resolutionEventsFor, hone]
      · push_neg at hx
        have hzero : (pendingEntriesFor s.enforce_security_policy_callback_map_ addr).countP
            (fun x => decide (x.2.2 = cb)) = 0 :=
          countP_key_eq_zero (fun y hy hfy => hx y hy hfy)
        have := h.resolution_le_one cb
        simp [resolutionCount_resolutionEventsFor, hzero]
        omega
    · intro cb hlt
      replace hlt : cb < s.next_callback_id := hlt
      rcases h.cb_pending_or_resolved cb hlt with ⟨e, he, hec⟩ | hr
      · by_cases hea : e.1.address = addr
        · right
          have hone : (pendingEntriesFor s.enforce_security_policy_callback_map_ addr).countP
              (fun x => decide (x.2.2 = cb)) = 1 :=
            countP_key_eq_one_of_nodup
              ((cbs_pendingEntriesFor_sublist _ _).nodup h.cb_nodup)
              (mem_pendingEntriesFor.mpr ⟨he, hea⟩) hec
          have h0r : resolutionCount evs cb = 0 := hec ▸ h.cb_unresolved e he
          simp [h0r, resolutionCount_resolutionEventsFor, hone]
        · left
          exact ⟨e, mem_removePendingFor.mpr ⟨he, hea⟩, hec⟩
      · right
        have hzero : (pendingEntriesFor s.enforce_security_policy_callback_map_ addr).countP
            (fun x => decide (x.2.2 = cb)) = 0 := by
          refine countP_key_eq_zero (fun y hy hfy => ?_)
          obtain ⟨hym, _⟩ := mem_pendingEntriesFor.mp hy
          have h0y := h.cb_unresolved y hym
          rw [hfy, hr] at h0y
          cases h0y
        simp [hr, resolutionCount_resolutionEventsFor, hzero]

theorem cbs_entriesFor_sublist (m : List (AddressWithType × SecurityPolicy × Nat))
    (remote : AddressWithType) :
    ((entriesFor m remote).map (fun e => e.2.2)).Sublist (m.map (fun e => e.2.2)) :=
  (List.filter_sublist m).map _

theorem internalEnforce_eq_of_satisfied {s : SMState} {remote : AddressWithType}
    {policy : SecurityPolicy} (cb_id : Nat) (t : Transport) (tm : Bool)
    (hs : satisfiesPolicy (recordLookup s remote) policy = true) :
    InternalEnforceSecurityPolicy s remote policy cb_id t tm =
      (s, [Event.policyResult cb_id true]) := by
  unfold InternalEnforceSecurityPolicy
  rw [hs]
  simp

theorem internalEnforce_eq_of_unmet {s : SMState} {remote : AddressWithType}
    {policy : SecurityPolicy} (cb_id : Nat) (t : Transport)
    (hs : satisfiesPolicy (recordLookup s remote) policy = false) :
    InternalEnforceSecurityPolicy s remote policy cb_id t true =
      ({ (DispatchPairingHandler
            { s with enforce_security_policy_callback_map_ :=
                removeEntriesFor s.enforce_security_policy_callback_map_ remote }
            remote t true).1 with
          enforce_security_policy_callback_map_ :=
            (remote, policy, cb_id) ::
              (DispatchPairingHandler
                { s with enforce_security_policy_callback_map_ :=
                    removeEntriesFor s.enforce_security_policy_callback_map_ remote }
                remote t true).1.enforce_security_policy_callback_map_ },
       displacedEvents s.enforce_security_policy_callback_map_ remote ++
         (DispatchPairingHandler
           { s with enforce_security_policy_callback_map_ :=
               removeEntriesFor s.enforce_security_policy_callback_map_ remote }
           remote t true).2) := by
  unfold InternalEnforceSecurityPolicy
  rw [hs]
  simp

theorem dispatch_lookup_self (s : SMState) (peer : AddressWithType) (t : Transport)
    (li : Bool) :
    (assocLookup (DispatchPairingHandler s peer t li).1.pairing_handler_map_
      peer.address).isSome = true := by
  cases hl : assocLookup s.pairing_handler_map_ peer.address with
  | some h0 =>
    rw [dispatch_eq_of_active hl]
    rw [hl]
    rfl
  | none =>
    rw [dispatch_eq_of_free hl]
    show (assocLookup ((peer.address, makeHandler s peer t li) ::
      s.pairing_handler_map_) peer.address).isSome = true
    rw [assocLookup_cons]
    simp

theorem dispatch_next_callback (s : SMState) (peer : AddressWithType) (t : Transport)
    (li : Bool) :
    (DispatchPairingHandler s peer t li).1.next_callback_id = s.next_callback_id := by
  cases hl : assocLookup s.pairing_handler_map_ peer.address with
  | some h0 =>
    rw [dispatch_eq_of_active hl]
  | none =>
    rw [dispatch_eq_of_free hl]

theorem inv_displace {s : SMState} {evs : List Event} (h : Inv s evs)
    (remote : AddressWithType) :
    Inv { s with enforce_security_policy_callback_map_ :=
            removeEntriesFor s.enforce_security_policy_callback_map_ remote }
        (evs ++ displacedEvents s.enforce_security_policy_callback_map_ remote) := by
  refine ⟨?_, ?_, ?_, ?_, ?_, ?_, ?_, ?_, ?_, ?_, ?_, ?_, ?_, ?_, ?_, ?_⟩
  · exact h.keys_nodup
  · exact h.nids_nodup
  · exact h.handler_nid_lt
  · intro e he
    simpa using h.handler_not_completed e he
  · intro nid hge
    replace hge : s.next_negotiation_id ≤ nid := hge
    simp [h.start_fresh nid hge]
  · intro nid hge
    replace hge : s.next_negotiation_id ≤ nid := hge
    simp [h.completion_fresh nid hge]
  · intro nid
    simpa using h.start_le_one nid
  · intro nid
    simpa using h.completion_le_one nid
  · intro nid h1
    have h1' : 1 ≤ startCount evs nid := by simpa using h1
    rcases h.started_active_or_completed nid h1' with he | hc
    · exact Or.inl he
    · right
      simpa using hc
  · intro e he
    exact h.cb_lt e (mem_removeEntriesFor.mp he).1
  · exact (cbs_removeEntriesFor_sublist _ _).nodup h.cb_nodup
  · intro e he
    obtain ⟨hem, her⟩ := mem_removeEntriesFor.mp he
    have h0r : resolutionCount evs e.2.2 = 0 := h.cb_unresolved e hem
    have hzero : (entriesFor s.enforce_security_policy_callback_map_ remote).countP
        (fun x => decide (x.2.2 = e.2.2)) = 0 := by
      refine countP_key_eq_zero (fun y hy hfy => ?_)
      obtain ⟨hym, hyr⟩ := mem_entriesFor.mp hy
      have hne : y ≠ e := fun hq => her (hq ▸ hyr)
      exact (nodup_map_ne h.cb_nodup hym hem hne) hfy
    simp [h0r, resolutionCount_displacedEvents, hzero]
  · intro e he
    exact h.cb_backed e (mem_removeEntriesFor.mp he).1
  · intro cb hge
    replace hge : s.next_callback_id ≤ cb := hge
    have hzero : (entriesFor s.enforce_security_policy_callback_map_ remote).countP
        (fun x => decide (x.2.2 = cb)) = 0 := by
      refine countP_key_eq_zero (fun y hy hfy => ?_)
      obtain ⟨hym, _⟩ := mem_entriesFor.mp hy
      have := h.cb_lt y hym
      omega
    simp [h.cb_fresh cb hge, resolutionCount_displacedEvents, hzero]
  · intro cb
    by_cases hx : ∃ y ∈ entriesFor s.enforce_security_policy_callback_map_ remote, y.2.2 = cb
    · obtain ⟨y, hy, hyc⟩ := hx
      obtain ⟨hym, _⟩ := mem_entriesFor.mp hy
      have h0r : resolutionCount evs cb = 0 := hyc ▸ h.cb_unresolved y hym
      have hone : (entriesFor s.enforce_security_policy_callback_map_ remote).countP
          (fun x => decide (x.2.2 = cb)) = 1 :=
        countP_key_eq_one_of_nodup ((cbs_entriesFor_sublist _ _).nodup h.cb_nodup) hy hyc
      simp [h0r, resolutionCount_displacedEvents, hone]
    · push_neg at hx
      have hzero : (entriesFor s.enforce_security_policy_callback_map_ remote).countP
          (fun x => decide (x.2.2 = cb)) = 0 :=
        countP_key_eq_zero (fun y hy hfy => hx y hy hfy)
      have := h.resolution_le_one cb
      simp [resolutionCount_displacedEvents, hzero]
      omega
  · intro cb hlt
    replace hlt : cb < s.next_callback_id := hlt
    rcases h.cb_pending_or_resolved cb hlt with ⟨e, he, hec⟩ | hr
    · by_cases her : e.1 = remote
      · right
        have hone : (entriesFor s.enforce_security_policy_callback_map_ remote).countP
            (fun x => decide (x.2.2 = cb)) = 1 :=
          countP_key_eq_one_of_nodup ((cbs_entriesFor_sublist _ _).nodup h.cb_nodup)
            (mem_entriesFor.mpr ⟨he, her⟩) hec
        have h0r : resolutionCount evs cb = 0 := hec ▸ h.cb_unresolved e he
        simp [h0r, resolutionCount_displacedEvents, hone]
      · left
        exact ⟨e, mem_removeEntriesFor.mpr ⟨he, her⟩, hec⟩
    · right
      have hzero : (entriesFor s.enforce_security_policy_callback_map_ remote).countP
          (fun x => decide (x.2.2 = cb)) = 0 := by
        refine countP_key_eq_zero (fun y hy hfy => ?_)
        obtain ⟨hym, _⟩ := mem_entriesFor.mp hy
        have h0y := h.cb_unresolved y hym
        rw [hfy, hr] at h0y
        cases h0y
      simp [hr, resolutionCount_displacedEvents, hzero]

theorem inv_register_entry {sB : SMState} {evsB : List Event} (h : Inv sB evsB)
    (remote : AddressWithType) (policy : SecurityPolicy) {cb : Nat}
    (hcb : sB.next_callback_id = cb)
    (hback : (assocLookup sB.pairing_handler_map_ remote.address).isSome = true) :
    Inv { sB with
          enforce_security_policy_callback_map_ :=
            (remote, policy, cb) :: sB.enforce_security_policy_callback_map_,
          next_callback_id := cb + 1 } evsB := by
  subst hcb
  refine ⟨?_, ?_, ?_, ?_, ?_, ?_, ?_, ?_, ?_, ?_, ?_, ?_, ?_, ?_, ?_, ?_⟩
  · exact h.keys_nodup
  · exact h.nids_nodup
  · exact h.handler_nid_lt
  · exact h.handler_not_completed
  · exact h.start_fresh
  · exact h.completion_fresh
  · exact h.start_le_one
  · exact h.completion_le_one
  · exact h.started_active_or_completed
  · intro e he
    rcases List.mem_cons.mp he with rfl | he'
    · exact Nat.lt_succ_self _
    · exact Nat.lt_succ_of_lt (h.cb_lt e he')
  · have hfresh : sB.next_callback_id ∉
        sB.enforce_security_policy_callback_map_.map (fun e => e.2.2) := by
      intro hmem
      obtain ⟨e, he, hfe⟩ := List.mem_map.mp hmem
      exact Nat.lt_irrefl _ (hfe ▸ h.cb_lt e he)
    exact List.nodup_cons.mpr ⟨hfresh, h.cb_nodup⟩
  · intro e he
    rcases List.mem_cons.mp he with rfl | he'
    · exact h.cb_fresh _ (Nat.le_refl _)
    · exact h.cb_unresolved e he'
  · intro e he
    rcases List.mem_cons.mp he with rfl | he'
    · exact hback
    · exact h.cb_backed e he'
  · intro cb' hge
    replace hge : sB.next_callback_id + 1 ≤ cb' := hge
    exact h.cb_fresh cb' (by omega)
  · exact h.resolution_le_one
  · intro cb' hlt
    replace hlt : cb' < sB.next_callback_id + 1 := hlt
    by_cases hx : cb' = sB.next_callback_id
    · left
      exact ⟨(remote, policy, sB.next_callback_id), List.mem_cons_self _ _, hx.symm⟩
    · rcases h.cb_pending_or_resolved cb' (by omega) with ⟨e, he, hec⟩ | hr
      · exact Or.inl ⟨e, List.mem_cons_of_mem _ he, hec⟩
      · exact Or.inr hr

theorem inv_enforce_any {s : SMState} {evs : List Event} (h : Inv s evs)
    (remote : AddressWithType) (policy : SecurityPolicy) (t : Transport) :
    Inv { (InternalEnforceSecurityPolicy s remote policy s.next_callback_id t true).1 with
          next_callback_id := s.next_callback_id + 1 }
        (evs ++ (InternalEnforceSecurityPolicy s remote policy s.next_callback_id t true).2) := by
  by_cases hs : satisfiesPolicy (recordLookup s remote) policy = true
  · rw [internalEnforce_eq_of_satisfied _ _ _ hs]
    refine ⟨?_, ?_, ?_, ?_, ?_, ?_, ?_, ?_, ?_, ?_, ?_, ?_, ?_, ?_, ?_, ?_⟩
    · exact h.keys_nodup
    · exact h.nids_nodup
    · exact h.handler_nid_lt
    · intro e he
      simpa using h.handler_not_completed e he
    · intro nid hge
      replace hge : s.next_negotiation_id ≤ nid := hge
      simp [h.start_fresh nid hge]
    · intro nid hge
      replace hge : s.next_negotiation_id ≤ nid := hge
      simp [h.completion_fresh nid hge]
    · intro nid
      simpa using h.start_le_one nid
    · intro nid
      simpa using h.completion_le_one nid
    · intro nid h1
      have h1' : 1 ≤ startCount evs nid := by simpa using h1
      rcases h.started_active_or_completed nid h1' with he | hc
      · exact Or.inl he
      · right
        simpa using hc
    · intro e he
      exact Nat.lt_succ_of_lt (h.cb_lt e he)
    · exact h.cb_nodup
    · intro e he
      have hlt := h.cb_lt e he
      have hne : ¬ s.next_callback_id = e.2.2 := by omega
      simp [h.cb_unresolved e he, hne]
    · intro e he
      exact h.cb_backed e he
    · intro cb hge
      replace hge : s.next_callback_id + 1 ≤ cb := hge
      have hne : ¬ s.next_callback_id = cb := by omega
      simp [h.cb_fresh cb (by omega), hne]
    · intro cb
      by_cases hx : s.next_callback_id = cb
      · simp [h.cb_fresh cb (by omega), hx]
      · have := h.resolution_le_one cb
        simp [hx]
        omega
    · intro cb hlt
      replace hlt : cb < s.next_callback_id + 1 := hlt
      by_cases hx : cb = s.next_callback_id
      · right
        have hx' : s.next_callback_id = cb := hx.symm
        simp [h.cb_fresh cb (by omega), hx']
      · rcases h.cb_pending_or_resolved cb (by omega) with hp | hr
        · exact Or.inl hp
        · right
          have hne : ¬ s.next_callback_id = cb := fun q => hx q.symm
          simp [hr, hne]
  · have hs' : satisfiesPolicy (recordLookup s remote) policy = false :=
      Bool.not_eq_true _ |>.mp hs
    rw [internalEnforce_eq_of_unmet _ _ hs']
    have h1 := inv_displace h remote
    have h2 := inv_dispatch h1 remote t true
    have h3 := inv_register_entry h2 remote policy
      (dispatch_next_callback _ _ _ _) (dispatch_lookup_self _ _ _ _)
    rw [List.append_assoc] at h3
    exact h3

theorem inv_enforceSecurityPolicy {s : SMState} {evs : List Event} (h : Inv s evs)
    (remote : AddressWithType) (policy : SecurityPolicy) :
    Inv (EnforceSecurityPolicy s remote policy).1
        (evs ++ (EnforceSecurityPolicy s remote policy).2) :=
  inv_enforce_any h remote policy Transport.classic

theorem inv_enforceLeSecurityPolicy {s : SMState} {evs : List Event} (h : Inv s evs)
    (remote : AddressWithType) (policy : SecurityPolicy) :
    Inv (EnforceLeSecurityPolicy s remote policy).1
        (evs ++ (EnforceLeSecurityPolicy s remote policy).2) :=
  inv_enforce_any h remote policy Transport.le

theorem inv_createBond {s : SMState} {evs : List Event} (h : Inv s evs)
    (a : AddressWithType) : Inv (CreateBond s a).1 (evs ++ (CreateBond s a).2) := by
  by_cases hb : isBondedRecord (recordLookup s a) = true
  · rw [createBond_eq_of_bonded hb]
    exact inv_nonevent h rfl rfl rfl rfl (neutralEvents_deviceBonded a)
  · rw [createBond_eq_of_not_bonded (Bool.not_eq_true _ |>.mp hb)]
    exact inv_dispatch h a Transport.classic true

theorem inv_createBondLe {s : SMState} {evs : List Event} (h : Inv s evs)
    (a : AddressWithType) : Inv (CreateBondLe s a).1 (evs ++ (CreateBondLe s a).2) := by
  by_cases hb : isBondedRecord (recordLookup s a) = true
  · rw [createBondLe_eq_of_bonded hb]
    exact inv_nonevent h rfl rfl rfl rfl (neutralEvents_deviceBonded a)
  · rw [createBondLe_eq_of_not_bonded (Bool.not_eq_true _ |>.mp hb)]
    exact inv_dispatch h a Transport.le true

theorem inv_step {s : SMState} {evs : List Event} (h : Inv s evs) (c : Command) :
    Inv (step s c).1 (evs ++ (step s c).2) := by
  cases c with
  | createBond a => exact inv_createBond h a
  | createBondLe a => exact inv_createBondLe h a
  | cancelBond a => exact inv_cancelBond h a
  | removeBond a => exact inv_removeBond h a
  | onPairingHandlerComplete addr res => exact inv_complete h addr res
  | enforceSecurityPolicy a p => exact inv_enforceSecurityPolicy h a p
  | enforceLeSecurityPolicy a p => exact inv_enforceLeSecurityPolicy h a p
  | setOutOfBandData a c r => exact inv_nonevent h rfl rfl rfl rfl neutralEvents_nil
  | setIoCapability c => exact inv_nonevent h rfl rfl rfl rfl neutralEvents_nil
  | setAuthenticationRequirements ar => exact inv_nonevent h rfl rfl rfl rfl neutralEvents_nil
  | setOobDataPresent p => exact inv_nonevent h rfl rfl rfl rfl neutralEvents_nil
  | setLeIoCapability c => exact inv_nonevent h rfl rfl rfl rfl neutralEvents_nil
  | setLeAuthRequirements ar => exact inv_nonevent h rfl rfl rfl rfl neutralEvents_nil
  | setLeOobDataPresent p => exact inv_nonevent h rfl rfl rfl rfl neutralEvents_nil

theorem inv_run {s : SMState} {evs : List Event} (h : Inv s evs) (cmds : List Command) :
    Inv (run s cmds).1 (evs ++ (run s cmds).2) := by
  induction cmds generalizing s evs with
  | nil =>
    have hn : Inv s (evs ++ []) := by
      rw [List.append_nil]
      exact h
    exact hn
  | cons c cs ih =>
    have h2 := ih (inv_step h c)
    rw [List.append_assoc] at h2
    exact h2

theorem inv_run_initial (db : List (AddressWithType × SecurityRecord))
    (cmds : List Command) :
    Inv (run (initialState db) cmds).1 (run (initialState db) cmds).2 := by
  have h := inv_run (inv_initial db) cmds
  simpa using h

/-- Whether a command is one of the six configuration setters of the facade
configuration API. -/
def isConfigSetter : Command → Bool
  | Command.setIoCapability _ => true
  | Command.setAuthenticationRequirements _ => true
  | Command.setOobDataPresent _ => true
  | Command.setLeIoCapability _ => true
  | Command.setLeAuthRequirements _ => true
  | Command.setLeOobDataPresent _ => true
  | _ => false

/-- The default LE AuthReq value of the header initializer (line 229). -/
def defaultLeAuthReq : Nat := AuthReqMaskBondingFlag ||| AuthReqMaskMitm ||| AuthReqMaskSc

/-- Every configuration member is at its header-initializer default and every
active handler carries the default configuration snapshot. -/
def ConfigDefault (s : SMState) : Prop :=
  s.local_io_capability_ = kDefaultIoCapability ∧
  s.local_authentication_requirements_ = kDefaultAuthenticationRequirements ∧
  s.local_oob_data_present_ = kDefaultOobDataPresent ∧
  s.local_le_io_capability_ = LeIoCapability.no_input_no_output ∧
  s.local_le_auth_req_ = defaultLeAuthReq ∧
  s.local_le_oob_data_present_ = OobDataFlag.not_present ∧
  ∀ e ∈ s.pairing_handler_map_,
    e.2.io_capability = kDefaultIoCapability ∧
    e.2.authentication_requirements = kDefaultAuthenticationRequirements ∧
    e.2.oob_data_present = kDefaultOobDataPresent ∧
    e.2.le_io_capability = LeIoCapability.no_input_no_output ∧
    e.2.le_auth_req = defaultLeAuthReq ∧
    e.2.le_oob_data_present = OobDataFlag.not_present

theorem configDefault_initial (db : List (AddressWithType × SecurityRecord)) :
    ConfigDefault (initialState db) := by
  refine ⟨rfl, rfl, rfl, rfl, rfl, rfl, ?_⟩
  intro e he
  cases he

theorem configDefault_dispatch {s : SMState} (h : ConfigDefault s)
    (peer : AddressWithType) (t : Transport) (li : Bool) :
    ConfigDefault (DispatchPairingHandler s peer t li).1 := by
  obtain ⟨h1, h2, h3, h4, h5, h6, hh⟩ := h
  cases hl : assocLookup s.pairing_handler_map_ peer.address with
  | some h0 =>
    rw [dispatch_eq_of_active hl]
    exact ⟨h1, h2, h3, h4, h5, h6, hh⟩
  | none =>
    rw [dispatch_eq_of_free hl]
    refine ⟨h1, h2, h3, h4, h5, h6, ?_⟩
    intro e he
    rcases List.mem_cons.mp he with rfl | he'
    · exact ⟨h1, h2, h3, h4, h5, h6⟩
    · exact hh e he'

theorem configDefault_markCancelled {s : SMState} (h : ConfigDefault s) (a : Address) :
    ConfigDefault { s with pairing_handler_map_ := markCancelled s.pairing_handler_map_ a } := by
  obtain ⟨h1, h2, h3, h4, h5, h6, hh⟩ := h
  refine ⟨h1, h2, h3, h4, h5, h6, ?_⟩
  intro e he
  obtain ⟨e0, he0, hcase⟩ := mem_markCancelled he
  rcases hcase with heq | heq <;> rw [heq]
  · exact hh e0 he0
  · simpa using hh e0 he0

theorem configDefault_cancelBond {s : SMState} (h : ConfigDefault s) (a : AddressWithType) :
    ConfigDefault (CancelBond s a).1 := by
  cases hl : assocLookup s.pairing_handler_map_ a.address with
  | none =>
    rw [cancelBond_eq_of_none hl]
    exact h
  | some h0 =>
    rw [cancelBond_eq_of_some hl]
    exact configDefault_markCancelled h a.address

theorem configDefault_step {s : SMState} (h : ConfigDefault s) {c : Command}
    (hc : isConfigSetter c = false) : ConfigDefault (step s c).1 := by
  obtain ⟨h1, h2, h3, h4, h5, h6, hh⟩ := h
  cases c with
  | createBond a =>
    by_cases hb : isBondedRecord (recordLookup s a) = true
    · show ConfigDefault (CreateBond s a).1
      rw [createBond_eq_of_bonded hb]
      exact ⟨h1, h2, h3, h4, h5, h6, hh⟩
    · show ConfigDefault (CreateBond s a).1
      rw [createBond_eq_of_not_bonded (Bool.not_eq_true _ |>.mp hb)]
      exact configDefault_dispatch ⟨h1, h2, h3, h4, h5, h6, hh⟩ a Transport.classic true
  | createBondLe a =>
    by_cases hb : isBondedRecord (recordLookup s a) = true
    · show ConfigDefault (CreateBondLe s a).1
      rw [createBondLe_eq_of_bonded hb]
      exact ⟨h1, h2, h3, h4, h5, h6, hh⟩
    · show ConfigDefault (CreateBondLe s a).1
      rw [createBondLe_eq_of_not_bonded (Bool.not_eq_true _ |>.mp hb)]
      exact configDefault_dispatch ⟨h1, h2, h3, h4, h5, h6, hh⟩ a Transport.le true
  | cancelBond a =>
    exact configDefault_cancelBond ⟨h1, h2, h3, h4, h5, h6, hh⟩ a
  | removeBond a =>
    show ConfigDefault (RemoveBond s a).1
    cases hr : recordLookup s a with
    | none =>
      rw [removeBond_eq_of_none hr]
      exact ⟨h1, h2, h3, h4, h5, h6, hh⟩
    | some r0 =>
      rw [removeBond_eq_of_some hr]
      have hs1 : ConfigDefault
          { s with security_database_ := assocErase s.security_database_ a } :=
        ⟨h1, h2, h3, h4, h5, h6, hh⟩
      obtain ⟨g1, g2, g3, g4, g5, g6, gh⟩ := configDefault_cancelBond hs1 a
      exact ⟨g1, g2, g3, g4, g5, g6, gh⟩
  | onPairingHandlerComplete addr res =>
    show ConfigDefault (OnPairingHandlerComplete s addr res).1
    cases hl : assocLookup s.pairing_handler_map_ addr with
    | none =>
      rw [complete_eq_of_none hl]
      exact ⟨h1, h2, h3, h4, h5, h6, hh⟩
    | some h0 =>
      rw [complete_eq_of_some hl]
      refine ⟨h1, h2, h3, h4, h5, h6, ?_⟩
      intro e he
      exact hh e (mem_assocErase.mp he).1
  | enforceSecurityPolicy a p =>
    show ConfigDefault (EnforceSecurityPolicy s a p).1
    by_cases hs : satisfiesPolicy (recordLookup s a) p = true
    · unfold EnforceSecurityPolicy
      rw [internalEnforce_eq_of_satisfied _ _ _ hs]
      exact ⟨h1, h2, h3, h4, h5, h6, hh⟩
    · unfold EnforceSecurityPolicy
      rw [internalEnforce_eq_of_unmet _ _ (Bool.not_eq_true _ |>.mp hs)]
      have hsD : ConfigDefault
          { s with enforce_security_policy_callback_map_ :=
              removeEntriesFor s.enforce_security_policy_callback_map_ a } :=
        ⟨h1, h2, h3, h4, h5, h6, hh⟩
      obtain ⟨g1, g2, g3, g4, g5, g6, gh⟩ :=
        configDefault_dispatch hsD a Transport.classic true
      exact ⟨g1, g2, g3, g4, g5, g6, gh⟩
  | enforceLeSecurityPolicy a p =>
    show ConfigDefault (EnforceLeSecurityPolicy s a p).1
    by_cases hs : satisfiesPolicy (recordLookup s a) p = true
    · unfold EnforceLeSecurityPolicy
      rw [internalEnforce_eq_of_satisfied _ _ _ hs]
      exact ⟨h1, h2, h3, h4, h5, h6, hh⟩
    · unfold EnforceLeSecurityPolicy
      rw [internalEnforce_eq_of_unmet _ _ (Bool.not_eq_true _ |>.mp hs)]
      have hsD : ConfigDefault
          { s with enforce_security_policy_callback_map_ :=
              removeEntriesFor s.enforce_security_policy_callback_map_ a } :=
        ⟨h1, h2, h3, h4, h5, h6, hh⟩
      obtain ⟨g1, g2, g3, g4, g5, g6, gh⟩ :=
        configDefault_dispatch hsD a Transport.le true
      exact ⟨g1, g2, g3, g4, g5, g6, gh⟩
  | setOutOfBandData a cv rv =>
    exact ⟨h1, h2, h3, h4, h5, h6, hh⟩
  | setIoCapability c => cases hc
  | setAuthenticationRequirements ar => cases hc
  | setOobDataPresent p => cases hc
  | setLeIoCapability c => cases hc
  | setLeAuthRequirements ar => cases hc
  | setLeOobDataPresent p => cases hc

theorem configDefault_run {s : SMState} (h : ConfigDefault s) {cmds : List Command}
    (hc : ∀ c ∈ cmds, isConfigSetter c = false) : ConfigDefault (run s cmds).1 := by
  induction cmds generalizing s with
  | nil => exact h
  | cons c cs ih =>
    exact ih (configDefault_step h (hc c (List.mem_cons_self _ _)))
      (fun c' hc' => hc c' (List.mem_cons_of_mem _ hc'))

theorem filter_ne_filter_not_mem (l : List Nat) (i : Nat) (ids : List Nat) :
    (l.filter (fun j => decide (¬ j = i))).filter (fun j => decide (j ∉ ids)) =
      l.filter (fun j => decide (j ∉ i :: ids)) := by
  rw [List.filter_filter]
  apply List.filter_congr
  intro j _
  by_cases h1 : j = i <;> by_cases h2 : j ∈ ids <;> simp [h1, h2]

theorem teardown_unreg_phase (chans : List LeFixedChannelEntry) (rest : List TeardownAction)
    (reg buf : List Nat) :
    teardownSafe ((chans.flatMap fun c =>
        [TeardownAction.unregisterDequeue c.channel_id,
         TeardownAction.releaseEnqueueBuffer c.channel_id]) ++ rest) reg buf =
      teardownSafe rest
        (reg.filter (fun j => decide (j ∉ chans.map (fun c => c.channel_id))))
        (buf.filter (fun j => decide (j ∉ chans.map (fun c => c.channel_id)))) := by
  induction chans generalizing reg buf with
  | nil => simp [teardownSafe]
  | cons c cs ih =>
    simp only [List.flatMap_cons, List.cons_append, List.nil_append, List.append_assoc]
    rw [teardownSafe, teardownSafe, ih, filter_ne_filter_not_mem, filter_ne_filter_not_mem,
      List.map_cons]

theorem teardown_destroys (chans : List LeFixedChannelEntry) (reg buf : List Nat)
    (hreg : ∀ c ∈ chans, c.channel_id ∉ reg) (hbuf : ∀ c ∈ chans, c.channel_id ∉ buf) :
    teardownSafe (chans.map (fun c => TeardownAction.destroyEntry c.channel_id)) reg buf
      = true := by
  induction chans with
  | nil => rfl
  | cons c cs ih =>
    have d1 : c.channel_id ∉ reg := hreg c (List.mem_cons_self _ _)
    have d2 : c.channel_id ∉ buf := hbuf c (List.mem_cons_self _ _)
    rw [List.map_cons, teardownSafe]
    simp only [d1, d2, decide_True, Bool.true_and]
    exact ih (fun c' h' => hreg c' (List.mem_cons_of_mem _ h'))
      (fun c' h' => hbuf c' (List.mem_cons_of_mem _ h'))

theorem destructor_teardownSafe (chans : List LeFixedChannelEntry) :
    teardownSafe (destructorActions chans)
      (chans.map (fun c => c.channel_id)) (chans.map (fun c => c.channel_id)) = true := by
  unfold destructorActions
  rw [teardown_unreg_phase]
  refine teardown_destroys _ _ _ ?_ ?_ <;>
    · intro c hcm hmem
      rw [List.mem_filter] at hmem
      exact (of_decide_eq_true hmem.2) (List.mem_map_of_mem _ hcm)

theorem handlerMap_createBond_of_active {s : SMState} {a : AddressWithType}
    {h0 : PairingHandler} (hl : assocLookup s.pairing_handler_map_ a.address = some h0) :
    (CreateBond s a).1.pairing_handler_map_ = s.pairing_handler_map_ := by
  by_cases hb : isBondedRecord (recordLookup s a) = true
  · rw [createBond_eq_of_bonded hb]
  · rw [createBond_eq_of_not_bonded (Bool.not_eq_true _ |>.mp hb), dispatch_eq_of_active hl]

theorem handlerMap_createBondLe_of_active {s : SMState} {a : AddressWithType}
    {h0 : PairingHandler} (hl : assocLookup s.pairing_handler_map_ a.address = some h0) :
    (CreateBondLe s a).1.pairing_handler_map_ = s.pairing_handler_map_ := by
  by_cases hb : isBondedRecord (recordLookup s a) = true
  · rw [createBondLe_eq_of_bonded hb]
  · rw [createBondLe_eq_of_not_bonded (Bool.not_eq_true _ |>.mp hb), dispatch_eq_of_active hl]

theorem startEvents_createBond_of_active {s : SMState} {a : AddressWithType}
    {h0 : PairingHandler} (hl : assocLookup s.pairing_handler_map_ a.address = some h0)
    (nid : Nat) : startCount (CreateBond s a).2 nid = 0 := by
  by_cases hb : isBondedRecord (recordLookup s a) = true
  · rw [createBond_eq_of_bonded hb]
    simp
  · rw [createBond_eq_of_not_bonded (Bool.not_eq_true _ |>.mp hb), dispatch_eq_of_active hl]
    rfl

theorem startEvents_createBondLe_of_active {s : SMState} {a : AddressWithType}
    {h0 : PairingHandler} (hl : assocLookup s.pairing_handler_map_ a.address = some h0)
    (nid : Nat) : startCount (CreateBondLe s a).2 nid = 0 := by
  by_cases hb : isBondedRecord (recordLookup s a) = true
  · rw [createBondLe_eq_of_bonded hb]
    simp
  · rw [createBondLe_eq_of_not_bonded (Bool.not_eq_true _ |>.mp hb), dispatch_eq_of_active hl]
    rfl

theorem dispatch_db (s : SMState) (peer : AddressWithType) (t : Transport) (li : Bool) :
    (DispatchPairingHandler s peer t li).1.security_database_ = s.security_database_ := by
  cases hl : assocLookup s.pairing_handler_map_ peer.address with
  | some h0 => rw [dispatch_eq_of_active hl]
  | none => rw [dispatch_eq_of_free hl]

theorem dispatch_emap (s : SMState) (peer : AddressWithType) (t : Transport) (li : Bool) :
    (DispatchPairingHandler s peer t li).1.enforce_security_policy_callback_map_ =
      s.enforce_security_policy_callback_map_ := by
  cases hl : assocLookup s.pairing_handler_map_ peer.address with
  | some h0 => rw [dispatch_eq_of_active hl]
  | none => rw [dispatch_eq_of_free hl]

theorem createBond_db (s : SMState) (a : AddressWithType) :
    (CreateBond s a).1.security_database_ = s.security_database_ := by
  by_cases hb : isBondedRecord (recordLookup s a) = true
  · rw [createBond_eq_of_bonded hb]
  · rw [createBond_eq_of_not_bonded (Bool.not_eq_true _ |>.mp hb)]
    exact dispatch_db s a Transport.classic true

theorem cancelBond_db (s : SMState) (a : AddressWithType) :
    (CancelBond s a).1.security_database_ = s.security_database_ := by
  cases hl : assocLookup s.pairing_handler_map_ a.address with
  | none => rw [cancelBond_eq_of_none hl]
  | some h0 => rw [cancelBond_eq_of_some hl]

theorem assocLookup_markCancelled_self (m : List (Address × PairingHandler)) (a : Address) :
    assocLookup (markCancelled m a) a =
      (assocLookup m a).map (fun h => { h with cancelled := true }) := by
  induction m with
  | nil => rfl
  | cons e m ih =>
    by_cases hk : e.1 = a <;> simp [markCancelled, assocLookup, hk] at * <;> exact ih

theorem complete_db_unchanged {s : SMState} {addr : Address} {res : PairingResultOrFailure}
    (hc : ∀ h0, assocLookup s.pairing_handler_map_ addr = some h0 → h0.cancelled = true) :
    (OnPairingHandlerComplete s addr res).1.security_database_ = s.security_database_ := by
  cases hl : assocLookup s.pairing_handler_map_ addr with
  | none => rw [complete_eq_of_none hl]
  | some h0 =>
    rw [complete_eq_of_some hl]
    show completeRecordUpdate s.security_database_ h0
      (if h0.cancelled then PairingResultOrFailure.failure PairingFailureReason.cancelled
       else res) = s.security_database_
    rw [hc h0 hl]
    rfl

theorem enforce_emap_unmet {s : SMState} {remote : AddressWithType}
    {policy : SecurityPolicy}
    (hs : satisfiesPolicy (recordLookup s remote) policy = false) :
    (EnforceSecurityPolicy s remote policy).1.enforce_security_policy_callback_map_ =
      (remote, policy, s.next_callback_id) ::
        removeEntriesFor s.enforce_security_policy_callback_map_ remote := by
  show (InternalEnforceSecurityPolicy s remote policy s.next_callback_id
      Transport.classic true).1.enforce_security_policy_callback_map_ = _
  rw [internalEnforce_eq_of_unmet _ _ hs]
  show (remote, policy, s.next_callback_id) ::
      (DispatchPairingHandler
        { s with enforce_security_policy_callback_map_ :=
            removeEntriesFor s.enforce_security_policy_callback_map_ remote }
        remote Transport.classic true).1.enforce_security_policy_callback_map_ = _
  rw [dispatch_emap]

/-- C1: at most one active pairing handler exists per peer at any instant —
along every reachable execution the handler-table keys stay pairwise
distinct — and a `CreateBond` or `CreateBondLe` call for a peer whose bare
address already has an active handler leaves the handler table unchanged and
starts no new negotiation; when additionally the peer's record is not
bonded, the call is a complete no-op. -/
theorem claim_c1_single_handler_per_peer :
    (∀ (db : List (AddressWithType × SecurityRecord)) (cmds : List Command),
      (((run (initialState db) cmds).1.pairing_handler_map_).map Prod.fst).Nodup) ∧
    (∀ (s : SMState) (a : AddressWithType),
      (assocLookup s.pairing_handler_map_ a.address).isSome = true →
        (CreateBond s a).1.pairing_handler_map_ = s.pairing_handler_map_ ∧
        (CreateBondLe s a).1.pairing_handler_map_ = s.pairing_handler_map_ ∧
        (∀ nid, startCount (CreateBond s a).2 nid = 0) ∧
        (∀ nid, startCount (CreateBondLe s a).2 nid = 0)) ∧
    (∀ (s : SMState) (a : AddressWithType),
      (assocLookup s.pairing_handler_map_ a.address).isSome = true →
      isBondedRecord (recordLookup s a) = false →
        CreateBond s a = (s, []) ∧ CreateBondLe s a = (s, [])) := by
  refine ⟨?_, ?_, ?_⟩
  · intro db cmds
    exact (inv_run_initial db cmds).keys_nodup
  · intro s a hsome
    obtain ⟨h0, hl⟩ := Option.isSome_iff_exists.mp hsome
    exact ⟨handlerMap_createBond_of_active hl, handlerMap_createBondLe_of_active hl,
      startEvents_createBond_of_active hl, startEvents_createBondLe_of_active hl⟩
  · intro s a hsome hb
    obtain ⟨h0, hl⟩ := Option.isSome_iff_exists.mp hsome
    constructor
    · rw [createBond_eq_of_not_bonded hb, dispatch_eq_of_active hl]
    · rw [createBondLe_eq_of_not_bonded hb, dispatch_eq_of_active hl]

/-- Witness for C1 at a concrete state: after one `CreateBond`, a second
`CreateBond` and a `CreateBondLe` for the same peer are no-ops. -/
theorem claim_c1_witness :
    ((assocLookup (run (initialState [])
        [Command.createBond ⟨⟨1⟩, AddressType.public_device_address⟩]).1.pairing_handler_map_
        (⟨1⟩ : Address)).isSome = true ∧
      isBondedRecord (recordLookup (run (initialState [])
        [Command.createBond ⟨⟨1⟩, AddressType.public_device_address⟩]).1
        ⟨⟨1⟩, AddressType.public_device_address⟩) = false) ∧
    (CreateBond (run (initialState [])
        [Command.createBond ⟨⟨1⟩, AddressType.public_device_address⟩]).1
        ⟨⟨1⟩, AddressType.public_device_address⟩ =
      ((run (initialState [])
        [Command.createBond ⟨⟨1⟩, AddressType.public_device_address⟩]).1, []) ∧
     CreateBondLe (run (initialState [])
        [Command.createBond ⟨⟨1⟩, AddressType.public_device_address⟩]).1
        ⟨⟨1⟩, AddressType.public_device_address⟩ =
      ((run (initialState [])
        [Command.createBond ⟨⟨1⟩, AddressType.public_device_address⟩]).1, [])) :=
  ⟨⟨by decide, by decide⟩,
    claim_c1_single_handler_per_peer.2.2 _ _ (by decide) (by decide)⟩

/-- C2: `OnPairingHandlerComplete` runs exactly once per negotiation: each
invocation removes the peer's handler from the table, on every reachable
trace no negotiation is completed more than once, and on every trace ending
with no active handler (every negotiation terminated) each started
negotiation has exactly one processed completion — never zero and never
two. -/
theorem claim_c2_complete_exactly_once :
    (∀ (s : SMState) (addr : Address) (res : PairingResultOrFailure),
      assocLookup (OnPairingHandlerComplete s addr res).1.pairing_handler_map_ addr = none) ∧
    (∀ (db : List (AddressWithType × SecurityRecord)) (cmds : List Command) (nid : Nat),
      completionCount (run (initialState db) cmds).2 nid ≤ 1) ∧
    (∀ (db : List (AddressWithType × SecurityRecord)) (cmds : List Command),
      (run (initialState db) cmds).1.pairing_handler_map_ = [] →
      ∀ nid, 1 ≤ startCount (run (initialState db) cmds).2 nid →
        completionCount (run (initialState db) cmds).2 nid = 1) := by
  refine ⟨?_, ?_, ?_⟩
  · intro s addr res
    cases hl : assocLookup s.pairing_handler_map_ addr with
    | none =>
      rw [complete_eq_of_none hl]
      exact hl
    | some h0 =>
      rw [complete_eq_of_some hl]
      show assocLookup (assocErase s.pairing_handler_map_ addr) addr = none
      rw [assocLookup_assocErase, if_pos rfl]
  · intro db cmds nid
    exact (inv_run_initial db cmds).completion_le_one nid
  · intro db cmds hmap nid hstart
    rcases (inv_run_initial db cmds).started_active_or_completed nid hstart with ⟨e, he, _⟩ | hc
    · rw [hmap] at he
      exact absurd he (List.not_mem_nil e)
    · exact hc

/-- Witness for C2 at a concrete trace: one negotiation started and
terminated by a protocol failure is completed exactly once. -/
theorem claim_c2_witness :
    ((run (initialState [])
        [Command.createBond ⟨⟨1⟩, AddressType.public_device_address⟩,
         Command.onPairingHandlerComplete ⟨1⟩
           (PairingResultOrFailure.failure PairingFailureReason.protocol_failure)]).1.pairing_handler_map_
        = [] ∧
      1 ≤ startCount (run (initialState [])
        [Command.createBond ⟨⟨1⟩, AddressType.public_device_address⟩,
         Command.onPairingHandlerComplete ⟨1⟩
           (PairingResultOrFailure.failure PairingFailureReason.protocol_failure)]).2 0) ∧
    completionCount (run (initialState [])
        [Command.createBond ⟨⟨1⟩, AddressType.public_device_address⟩,
         Command.onPairingHandlerComplete ⟨1⟩
           (PairingResultOrFailure.failure PairingFailureReason.protocol_failure)]).2 0 = 1 :=
  ⟨⟨by decide, by decide⟩,
    claim_c2_complete_exactly_once.2.2 _ _ (by decide) 0 (by decide)⟩

/-- C3: every result callback supplied to `EnforceSecurityPolicy` or
`EnforceLeSecurityPolicy` is resolved at most once on every reachable trace,
and exactly once on every trace ending with no active handler — also when a
pending policy-enforcement entry for the same peer already existed at the
call. -/
theorem claim_c3_policy_exactly_one_resolution :
    (∀ (db : List (AddressWithType × SecurityRecord)) (cmds : List Command) (cb : Nat),
      resolutionCount (run (initialState db) cmds).2 cb ≤ 1) ∧
    (∀ (db : List (AddressWithType × SecurityRecord)) (cmds : List Command),
      (run (initialState db) cmds).1.pairing_handler_map_ = [] →
      ∀ cb, cb < (run (initialState db) cmds).1.next_callback_id →
        resolutionCount (run (initialState db) cmds).2 cb = 1) := by
  refine ⟨?_, ?_⟩
  · intro db cmds cb
    exact (inv_run_initial db cmds).resolution_le_one cb
  · intro db cmds hmap cb hlt
    rcases (inv_run_initial db cmds).cb_pending_or_resolved cb hlt with ⟨e, he, _⟩ | hr
    · have hb := (inv_run_initial db cmds).cb_backed e he
      rw [hmap] at hb
      simp [assocLookup] at hb
    · exact hr

/-- Witness for C3 at a concrete trace with two enforcement calls for the
same peer (the second displacing the first's pending entry) and one pairing
completion: both callbacks are resolved exactly once. -/
theorem claim_c3_witness :
    ((run (initialState [])
        [Command.enforceSecurityPolicy ⟨⟨1⟩, AddressType.public_device_address⟩
           SecurityPolicy.encrypted_transport,
         Command.enforceSecurityPolicy ⟨⟨1⟩, AddressType.public_device_address⟩
           SecurityPolicy.encrypted_transport,
         Command.onPairingHandlerComplete ⟨1⟩
           (PairingResultOrFailure.success ⟨[7]⟩ true)]).1.pairing_handler_map_ = [] ∧
      0 < (run (initialState [])
        [Command.enforceSecurityPolicy ⟨⟨1⟩, AddressType.public_device_address⟩
           SecurityPolicy.encrypted_transport,
         Command.enforceSecurityPolicy ⟨⟨1⟩, AddressType.public_device_address⟩
           SecurityPolicy.encrypted_transport,
         Command.onPairingHandlerComplete ⟨1⟩
           (PairingResultOrFailure.success ⟨[7]⟩ true)]).1.next_callback_id) ∧
    resolutionCount (run (initialState [])
        [Command.enforceSecurityPolicy ⟨⟨1⟩, AddressType.public_device_address⟩
           SecurityPolicy.encrypted_transport,
         Command.enforceSecurityPolicy ⟨⟨1⟩, AddressType.public_device_address⟩
           SecurityPolicy.encrypted_transport,
         Command.onPairingHandlerComplete ⟨1⟩
           (PairingResultOrFailure.success ⟨[7]⟩ true)]).2 0 = 1 :=
  ⟨⟨by decide, by decide⟩,
    claim_c3_policy_exactly_one_resolution.2 _ _ (by decide) 0 (by decide)⟩

/-- C4: cancellation never corrupts the security record store — a
`CancelBond` call leaves `security_database_` untouched, a full
create-bond / cancel / terminal-callback round trip for a peer leaves the
database exactly as it was before the negotiation began, and `CancelBond`
for a peer with no active handler changes nothing at all. -/
theorem claim_c4_cancel_preserves_record :
    (∀ (s : SMState) (a : AddressWithType),
      (CancelBond s a).1.security_database_ = s.security_database_) ∧
    (∀ (s : SMState) (a : AddressWithType) (res : PairingResultOrFailure),
      (run s [Command.createBond a, Command.cancelBond a,
              Command.onPairingHandlerComplete a.address res]).1.security_database_ =
        s.security_database_) ∧
    (∀ (s : SMState) (a : AddressWithType),
      assocLookup s.pairing_handler_map_ a.address = none →
        CancelBond s a = (s, [])) := by
  refine ⟨?_, ?_, ?_⟩
  · exact cancelBond_db
  · intro s a res
    show (OnPairingHandlerComplete (CancelBond (CreateBond s a).1 a).1
        a.address res).1.security_database_ = s.security_database_
    have h3 : (OnPairingHandlerComplete (CancelBond (CreateBond s a).1 a).1
        a.address res).1.security_database_ =
        (CancelBond (CreateBond s a).1 a).1.security_database_ := by
      apply complete_db_unchanged
      intro h0 hl0
      cases hl1 : assocLookup (CreateBond s a).1.pairing_handler_map_ a.address with
      | none =>
        rw [cancelBond_eq_of_none hl1] at hl0
        exact Option.noConfusion (hl1.symm.trans hl0)
      | some hh =>
        rw [cancelBond_eq_of_some hl1] at hl0
        have hl0' : assocLookup
            (markCancelled (CreateBond s a).1.pairing_handler_map_ a.address)
            a.address = some h0 := hl0
        rw [assocLookup_markCancelled_self, hl1] at hl0'
        have hinj : ({ hh with cancelled := true } : PairingHandler) = h0 :=
          Option.some.inj hl0'
        rw [← hinj]
    rw [h3, cancelBond_db, createBond_db]
  · intro s a hl
    exact cancelBond_eq_of_none hl

/-- Witness for C4: at the freshly initialized orchestrator, `CancelBond`
for a peer with no active handler is a complete no-op. -/
theorem claim_c4_witness :
    assocLookup (initialState []).pairing_handler_map_
      (⟨⟨1⟩, AddressType.public_device_address⟩ : AddressWithType).address = none ∧
    CancelBond (initialState []) ⟨⟨1⟩, AddressType.public_device_address⟩ =
      (initialState [], []) :=
  ⟨by decide, claim_c4_cancel_preserves_record.2.2 _ _ (by decide)⟩

/-- C5: `RemoveBond` reports success and fires the unbonded listener
notification exactly when a security record for the peer existed at the
call; with no record it reports failure and fires nothing. -/
theorem claim_c5_removeBond_iff_record :
    ∀ (s : SMState) (a : AddressWithType),
      ((RemoveBond s a).2.2 = true ↔ (recordLookup s a).isSome = true) ∧
      (Event.deviceUnbonded a ∈ (RemoveBond s a).2.1 ↔ (recordLookup s a).isSome = true) := by
  intro s a
  cases hr : recordLookup s a with
  | none =>
    rw [removeBond_eq_of_none hr]
    simp
  | some r0 =>
    rw [removeBond_eq_of_some hr]
    simp

/-- C6: when the peer's record already satisfies the requested policy,
`EnforceSecurityPolicy` resolves the supplied callback synchronously with
success as its only effect besides allocating the callback identity, and
the pairing-handler table is unchanged. -/
theorem claim_c6_policy_satisfied_synchronous :
    ∀ (s : SMState) (remote : AddressWithType) (policy : SecurityPolicy),
      satisfiesPolicy (recordLookup s remote) policy = true →
        EnforceSecurityPolicy s remote policy =
          ({ s with next_callback_id := s.next_callback_id + 1 },
           [Event.policyResult s.next_callback_id true]) ∧
        (EnforceSecurityPolicy s remote policy).1.pairing_handler_map_ =
          s.pairing_handler_map_ := by
  intro s remote policy hs
  have heq : EnforceSecurityPolicy s remote policy =
      ({ s with next_callback_id := s.next_callback_id + 1 },
       [Event.policyResult s.next_callback_id true]) := by
    show ({ (InternalEnforceSecurityPolicy s remote policy s.next_callback_id
          Transport.classic true).1 with
        next_callback_id := s.next_callback_id + 1 },
      (InternalEnforceSecurityPolicy s remote policy s.next_callback_id
          Transport.classic true).2) = _
    rw [internalEnforce_eq_of_satisfied _ _ _ hs]
  refine ⟨heq, ?_⟩
  rw [heq]

/-- Witness for C6: a peer loaded as bonded satisfies the
encrypted-transport policy, and the enforcement call resolves synchronously
with success. -/
theorem claim_c6_witness :
    satisfiesPolicy (recordLookup (initialState
        [(⟨⟨1⟩, AddressType.public_device_address⟩,
          { state := BondState.bonded, key_material := some ⟨[7]⟩, authenticated := true,
            io_capability_used := some IoCapability.display_yes_no })])
        ⟨⟨1⟩, AddressType.public_device_address⟩) SecurityPolicy.encrypted_transport = true ∧
    EnforceSecurityPolicy (initialState
        [(⟨⟨1⟩, AddressType.public_device_address⟩,
          { state := BondState.bonded, key_material := some ⟨[7]⟩, authenticated := true,
            io_capability_used := some IoCapability.display_yes_no })])
        ⟨⟨1⟩, AddressType.public_device_address⟩ SecurityPolicy.encrypted_transport =
      ({ initialState
          [(⟨⟨1⟩, AddressType.public_device_address⟩,
            { state := BondState.bonded, key_material := some ⟨[7]⟩, authenticated := true,
              io_capability_used := some IoCapability.display_yes_no })] with
          next_callback_id := (initialState
            [(⟨⟨1⟩, AddressType.public_device_address⟩,
              { state := BondState.bonded, key_material := some ⟨[7]⟩, authenticated := true,
                io_capability_used := some IoCapability.display_yes_no })]).next_callback_id + 1 },
       [Event.policyResult (initialState
          [(⟨⟨1⟩, AddressType.public_device_address⟩,
            { state := BondState.bonded, key_material := some ⟨[7]⟩, authenticated := true,
              io_capability_used := some IoCapability.display_yes_no })]).next_callback_id
          true]) :=
  ⟨by decide, (claim_c6_policy_satisfied_synchronous _ _ _ (by decide)).1⟩

/-- C7: the remote OOB store is a single slot — `SetOutOfBandData` leaves
exactly the supplied peer/confirmation/random triple in the three
`std::optional` members, whatever they held before — and an LE handler
dispatched for that peer right after observes exactly that
confirmation/random pair as the remote OOB data. -/
theorem claim_c7_oob_single_slot :
    (∀ (s : SMState) (a : AddressWithType) (c r : Octet16),
      (SetOutOfBandData s a c r).remote_oob_data_address_ = some a ∧
      (SetOutOfBandData s a c r).remote_oob_data_le_sc_c_ = some c ∧
      (SetOutOfBandData s a c r).remote_oob_data_le_sc_r_ = some r) ∧
    (∀ (s : SMState) (a : AddressWithType) (c r : Octet16),
      isBondedRecord (recordLookup s a) = false →
      assocLookup s.pairing_handler_map_ a.address = none →
      ∃ h : PairingHandler,
        assocLookup (run s [Command.setOutOfBandData a c r,
            Command.createBondLe a]).1.pairing_handler_map_ a.address = some h ∧
        h.remote_oob_c = some c ∧ h.remote_oob_r = some r) := by
  refine ⟨?_, ?_⟩
  · intro s a c r
    exact ⟨rfl, rfl, rfl⟩
  · intro s a c r hb hl
    have hb1 : isBondedRecord (recordLookup (SetOutOfBandData s a c r) a) = false := hb
    have hl1 : assocLookup (SetOutOfBandData s a c r).pairing_handler_map_ a.address =
      none := hl
    refine ⟨makeHandler (SetOutOfBandData s a c r) a Transport.le true, ?_, ?_, ?_⟩
    · show assocLookup (CreateBondLe (SetOutOfBandData s a c r) a).1.pairing_handler_map_
        a.address = some (makeHandler (SetOutOfBandData s a c r) a Transport.le true)
      rw [createBondLe_eq_of_not_bonded hb1, dispatch_eq_of_free hl1]
      show assocLookup ((a.address, makeHandler (SetOutOfBandData s a c r) a Transport.le
        true) :: (SetOutOfBandData s a c r).pairing_handler_map_) a.address = _
      rw [assocLookup_cons, if_pos rfl]
    · simp [makeHandler, SetOutOfBandData]
    · simp [makeHandler, SetOutOfBandData]

/-- Witness for C7: at the freshly initialized orchestrator, storing remote
OOB data and creating an LE bond yields a handler observing exactly the
stored pair. -/
theorem claim_c7_witness :
    isBondedRecord (recordLookup (initialState [])
      ⟨⟨1⟩, AddressType.random_device_address⟩) = false ∧
    assocLookup (initialState []).pairing_handler_map_
      (⟨⟨1⟩, AddressType.random_device_address⟩ : AddressWithType).address = none ∧
    ∃ h : PairingHandler,
      assocLookup (run (initialState [])
          [Command.setOutOfBandData ⟨⟨1⟩, AddressType.random_device_address⟩ ⟨[3]⟩ ⟨[4]⟩,
           Command.createBondLe ⟨⟨1⟩, AddressType.random_device_address⟩]).1.pairing_handler_map_
        (⟨⟨1⟩, AddressType.random_device_address⟩ : AddressWithType).address = some h ∧
      h.remote_oob_c = some ⟨[3]⟩ ∧ h.remote_oob_r = some ⟨[4]⟩ :=
  ⟨by decide, by decide,
    claim_c7_oob_single_slot.2 _ _ _ _ (by decide) (by decide)⟩

/-- Modelled from the spec (`FindStoredLeChannel`, header line 207, whose
parameter is the full `hci::AddressWithType`): the stored fixed-channel
entry for a peer, looked up in the channel list by the full peer
identity. -/
def FindStoredLeChannel (s : SMState) (device : AddressWithType) :
    Option LeFixedChannelEntry :=
  s.all_channels_.find? (fun c => decide (c.peer = device))

theorem cancelBond_channels (s : SMState) (a : AddressWithType) :
    (CancelBond s a).1.all_channels_ = s.all_channels_ := by
  cases hl : assocLookup s.pairing_handler_map_ a.address with
  | none => rw [cancelBond_eq_of_none hl]
  | some h0 => rw [cancelBond_eq_of_some hl]

theorem findStoredLeChannel_peer {s : SMState} {device : AddressWithType}
    {ch : LeFixedChannelEntry} (h : FindStoredLeChannel s device = some ch) :
    ch.peer = device := by
  have h' : s.all_channels_.find? (fun c => decide (c.peer = device)) = some ch := h
  simpa using List.find?_some h'

theorem removeBond_keeps_other_channels {s : SMState} {a1 a2 : AddressWithType}
    (hne : ¬ a1 = a2) {c : LeFixedChannelEntry} (hc : c ∈ s.all_channels_)
    (hp : c.peer = a2) : c ∈ (RemoveBond s a1).1.all_channels_ := by
  cases hr : recordLookup s a1 with
  | none =>
    rw [removeBond_eq_of_none hr]
    exact hc
  | some r0 =>
    rw [removeBond_eq_of_some hr]
    show c ∈ (CancelBond { s with
        security_database_ := assocErase s.security_database_ a1 }
        a1).1.all_channels_.filter (fun c => decide (¬ c.peer = a1))
    rw [cancelBond_channels]
    refine List.mem_filter.mpr ⟨hc, ?_⟩
    have : ¬ c.peer = a1 := fun hq => hne (hq.symm.trans hp)
    simpa using this

/-- C8 counterexample: with two peers sharing the bare address `1` but
carrying different address types, enrolling both leaves a single
pairing-handler-table entry, held for the first peer — the table is keyed by
the bare `hci::Address` (header line 224), so the two peers do not occupy
distinct entries in every per-peer map as the claim states. -/
theorem claim_c8_counterexample :
    ((run (initialState [])
        [Command.createBond ⟨⟨1⟩, AddressType.public_device_address⟩,
         Command.createBond ⟨⟨1⟩, AddressType.random_device_address⟩]).1.pairing_handler_map_.map
        (fun e => e.2.peer)) = [⟨⟨1⟩, AddressType.public_device_address⟩] ∧
    (⟨⟨1⟩, AddressType.public_device_address⟩ : AddressWithType) ≠
      ⟨⟨1⟩, AddressType.random_device_address⟩ :=
  ⟨by decide, by decide⟩

/-- C8 amended: the policy-enforcement table is keyed by the full peer
identity — an unmet enforcement call for `a2` registers `a2`'s own entry and
keeps every pending entry of any other full identity — and the fixed-channel
registry likewise operates on the full peer identity — a registry lookup for
a peer only returns an entry whose peer is exactly that full identity, and
removing one peer's bond leaves the channel entry of any other full
identity, same bare address included, in place — while the pairing-handler
table is keyed by the bare transport address, so a bond request for a peer
whose bare address already has an active handler is absorbed by that entry
instead of occupying a distinct one. -/
theorem claim_c8_amended :
    (∀ (s : SMState) (a2 : AddressWithType) (p2 : SecurityPolicy),
      satisfiesPolicy (recordLookup s a2) p2 = false →
        (EnforceSecurityPolicy s a2 p2).1.enforce_security_policy_callback_map_ =
          (a2, p2, s.next_callback_id) ::
            removeEntriesFor s.enforce_security_policy_callback_map_ a2 ∧
        ∀ e ∈ s.enforce_security_policy_callback_map_, ¬ e.1 = a2 →
          e ∈ (EnforceSecurityPolicy s a2 p2).1.enforce_security_policy_callback_map_) ∧
    (∀ (s : SMState) (device : AddressWithType) (ch : LeFixedChannelEntry),
      FindStoredLeChannel s device = some ch → ch.peer = device) ∧
    (∀ (s : SMState) (a1 a2 : AddressWithType), ¬ a1 = a2 →
      ∀ c ∈ s.all_channels_, c.peer = a2 →
        c ∈ (RemoveBond s a1).1.all_channels_) ∧
    (∀ (s : SMState) (a1 a2 : AddressWithType) (h0 : PairingHandler),
      a1.address = a2.address →
      assocLookup s.pairing_handler_map_ a1.address = some h0 →
        (CreateBond s a2).1.pairing_handler_map_ = s.pairing_handler_map_ ∧
        (CreateBondLe s a2).1.pairing_handler_map_ = s.pairing_handler_map_) := by
  refine ⟨?_, ?_, ?_, ?_⟩
  · intro s a2 p2 hs
    have hemap := enforce_emap_unmet hs
    refine ⟨hemap, ?_⟩
    intro e he hne
    rw [hemap]
    exact List.mem_cons_of_mem _ (mem_removeEntriesFor.mpr ⟨he, hne⟩)
  · intro s device ch h
    exact findStoredLeChannel_peer h
  · intro s a1 a2 hne c hc hp
    exact removeBond_keeps_other_channels hne hc hp
  · intro s a1 a2 h0 haddr hl
    have hl2 : assocLookup s.pairing_handler_map_ a2.address = some h0 := haddr ▸ hl
    exact ⟨handlerMap_createBond_of_active hl2, handlerMap_createBondLe_of_active hl2⟩

/-- Witness for the amended C8: concretely, after an enforcement call for
the public-address peer, an enforcement call for the random-address peer
with the same bare address registers a second, distinct policy entry, while
its bond request is absorbed by the existing handler-table entry. -/
theorem claim_c8_amended_witness :
    (satisfiesPolicy (recordLookup (run (initialState [])
        [Command.enforceSecurityPolicy ⟨⟨1⟩, AddressType.public_device_address⟩
          SecurityPolicy.encrypted_transport]).1
        ⟨⟨1⟩, AddressType.random_device_address⟩) SecurityPolicy.encrypted_transport
      = false ∧
     (⟨⟨1⟩, AddressType.public_device_address⟩ : AddressWithType).address =
       (⟨⟨1⟩, AddressType.random_device_address⟩ : AddressWithType).address) ∧
    ((EnforceSecurityPolicy (run (initialState [])
        [Command.enforceSecurityPolicy ⟨⟨1⟩, AddressType.public_device_address⟩
          SecurityPolicy.encrypted_transport]).1
        ⟨⟨1⟩, AddressType.random_device_address⟩
        SecurityPolicy.encrypted_transport).1.enforce_security_policy_callback_map_ =
      (⟨⟨1⟩, AddressType.random_device_address⟩, SecurityPolicy.encrypted_transport,
        (run (initialState [])
          [Command.enforceSecurityPolicy ⟨⟨1⟩, AddressType.public_device_address⟩
            SecurityPolicy.encrypted_transport]).1.next_callback_id) ::
        removeEntriesFor (run (initialState [])
          [Command.enforceSecurityPolicy ⟨⟨1⟩, AddressType.public_device_address⟩
            SecurityPolicy.encrypted_transport]).1.enforce_security_policy_callback_map_
          ⟨⟨1⟩, AddressType.random_device_address⟩ ∧
     (CreateBond (run (initialState [])
        [Command.enforceSecurityPolicy ⟨⟨1⟩, AddressType.public_device_address⟩
          SecurityPolicy.encrypted_transport]).1
        ⟨⟨1⟩, AddressType.random_device_address⟩).1.pairing_handler_map_ =
      (run (initialState [])
        [Command.enforceSecurityPolicy ⟨⟨1⟩, AddressType.public_device_address⟩
          SecurityPolicy.encrypted_transport]).1.pairing_handler_map_) ∧
    (FindStoredLeChannel { initialState [] with
        all_channels_ := [⟨⟨⟨1⟩, AddressType.public_device_address⟩, 10⟩,
                          ⟨⟨⟨1⟩, AddressType.random_device_address⟩, 20⟩] }
        ⟨⟨1⟩, AddressType.random_device_address⟩ =
      some ⟨⟨⟨1⟩, AddressType.random_device_address⟩, 20⟩ ∧
     (⟨⟨⟨1⟩, AddressType.random_device_address⟩, 20⟩ :
        LeFixedChannelEntry).peer = ⟨⟨1⟩, AddressType.random_device_address⟩ ∧
     (⟨⟨⟨1⟩, AddressType.random_device_address⟩, 20⟩ : LeFixedChannelEntry) ∈
      (RemoveBond { initialState [] with
          all_channels_ := [⟨⟨⟨1⟩, AddressType.public_device_address⟩, 10⟩,
                            ⟨⟨⟨1⟩, AddressType.random_device_address⟩, 20⟩] }
        ⟨⟨1⟩, AddressType.public_device_address⟩).1.all_channels_) :=
  ⟨⟨by decide, by decide⟩,
    ⟨(claim_c8_amended.1 _ _ _ (by decide)).1,
     (claim_c8_amended.2.2.2 _ ⟨⟨1⟩, AddressType.public_device_address⟩ _
       (makeHandler { initialState [] with
           enforce_security_policy_callback_map_ := [] }
         ⟨⟨1⟩, AddressType.public_device_address⟩ Transport.classic true)
       (by decide) (by decide)).1⟩,
    by decide,
    claim_c8_amended.2.1
      { initialState [] with
          all_channels_ := [⟨⟨⟨1⟩, AddressType.public_device_address⟩, 10⟩,
                            ⟨⟨⟨1⟩, AddressType.random_device_address⟩, 20⟩] }
      ⟨⟨1⟩, AddressType.random_device_address⟩
      ⟨⟨⟨1⟩, AddressType.random_device_address⟩, 20⟩
      (by decide),
    claim_c8_amended.2.2.1
      { initialState [] with
          all_channels_ := [⟨⟨⟨1⟩, AddressType.public_device_address⟩, 10⟩,
                            ⟨⟨⟨1⟩, AddressType.random_device_address⟩, 20⟩] }
      ⟨⟨1⟩, AddressType.public_device_address⟩
      ⟨⟨1⟩, AddressType.random_device_address⟩
      (by decide)
      ⟨⟨⟨1⟩, AddressType.random_device_address⟩, 20⟩
      (by decide) (by decide)⟩

/-- C9: the destructor's inline teardown loop (header lines 60-67)
unregisters every stored channel's dequeue path and releases every enqueue
buffer before any entry is destroyed — its action sequence passes the
teardown checker started with every channel's dequeue callback registered
and every enqueue buffer live, so no entry is ever destroyed with its
dequeue callback still registered. -/
theorem claim_c9_destructor_teardown :
    ∀ chans : List LeFixedChannelEntry,
      teardownSafe (destructorActions chans)
        (chans.map (fun c => c.channel_id)) (chans.map (fun c => c.channel_id)) = true :=
  destructor_teardownSafe

/-- C10: before any configuration setter runs, the orchestrator's
configuration members hold exactly the header-initializer defaults — classic
DISPLAY_YES_NO / NOT_PRESENT / GENERAL_BONDING and LE NO_INPUT_NO_OUTPUT /
bonding-MITM-SC AuthReq / NOT_PRESENT — and every negotiation it dispatches
on any setter-free trace snapshots exactly those defaults. -/
theorem claim_c10_defaults_before_setters :
    (∀ db : List (AddressWithType × SecurityRecord),
      (initialState db).local_io_capability_ = kDefaultIoCapability ∧
      (initialState db).local_authentication_requirements_ =
        kDefaultAuthenticationRequirements ∧
      (initialState db).local_oob_data_present_ = kDefaultOobDataPresent ∧
      (initialState db).local_le_io_capability_ = LeIoCapability.no_input_no_output ∧
      (initialState db).local_le_auth_req_ = defaultLeAuthReq ∧
      (initialState db).local_le_oob_data_present_ = OobDataFlag.not_present) ∧
    (kDefaultIoCapability = IoCapability.display_yes_no ∧
     kDefaultOobDataPresent = OobDataPresent.not_present ∧
     kDefaultAuthenticationRequirements = AuthenticationRequirements.general_bonding ∧
     defaultLeAuthReq.testBit 0 = true ∧ defaultLeAuthReq.testBit 2 = true ∧
     defaultLeAuthReq.testBit 3 = true) ∧
    (∀ (db : List (AddressWithType × SecurityRecord)) (cmds : List Command),
      (∀ c ∈ cmds, isConfigSetter c = false) →
      ∀ e ∈ (run (initialState db) cmds).1.pairing_handler_map_,
        e.2.io_capability = kDefaultIoCapability ∧
        e.2.authentication_requirements = kDefaultAuthenticationRequirements ∧
        e.2.oob_data_present = kDefaultOobDataPresent ∧
        e.2.le_io_capability = LeIoCapability.no_input_no_output ∧
        e.2.le_auth_req = defaultLeAuthReq ∧
        e.2.le_oob_data_present = OobDataFlag.not_present) := by
  refine ⟨?_, ?_, ?_⟩
  · intro db
    exact ⟨rfl, rfl, rfl, rfl, rfl, rfl⟩
  · exact ⟨rfl, rfl, rfl, by decide, by decide, by decide⟩
  · intro db cmds hc
    exact (configDefault_run (configDefault_initial db) hc).2.2.2.2.2.2

/-- Witness for C10: on the setter-free trace consisting of one classic and
one LE bond request, every dispatched handler carries the default
configuration snapshot. -/
theorem claim_c10_witness :
    (∀ c ∈ [Command.createBond ⟨⟨1⟩, AddressType.public_device_address⟩,
            Command.createBondLe ⟨⟨2⟩, AddressType.random_device_address⟩],
      isConfigSetter c = false) ∧
    (∀ e ∈ (run (initialState [])
        [Command.createBond ⟨⟨1⟩, AddressType.public_device_address⟩,
         Command.createBondLe ⟨⟨2⟩, AddressType.random_device_address⟩]).1.pairing_handler_map_,
      e.2.io_capability = kDefaultIoCapability ∧
      e.2.authentication_requirements = kDefaultAuthenticationRequirements ∧
      e.2.oob_data_present = kDefaultOobDataPresent ∧
      e.2.le_io_capability = LeIoCapability.no_input_no_output ∧
      e.2.le_auth_req = defaultLeAuthReq ∧
      e.2.le_oob_data_present = OobDataFlag.not_present) :=
  ⟨by decide, claim_c10_defaults_before_setters.2.2 [] _ (by decide)⟩

end SecurityImpl
